import Mathlib

/-!
Verification development for the Pinto DSL toolchain (lexer, parser/CST,
AST builder, layout compiler, decompiler).

Conventions of the shallow embedding:
* JavaScript numbers are modelled by `JsNum`: an exact rational together with
  the special values NaN, +Infinity and -Infinity.  Double rounding is not
  modelled; no verified claim depends on it.  `Number(s)` applied to the
  token images that can reach it is modelled by `numberOfValue`.
* JavaScript truthiness of numbers (`0`, `-0` and `NaN` are falsy) is
  `JsNum.truthy`; `a || b` on numbers is `jsOr`, on strings `jsOrStr`
  (the empty string is falsy).
* The chevrotain lexer matches token types in list order, first match wins,
  except that a token with `longer_alt: Identifier` yields an Identifier
  when the identifier match is strictly longer.  This is embedded directly
  (`allTokens`, `findFirstMatch`, `resolveLongerAlt`).
-/

namespace Pinto

/-- JavaScript number: exact rational plus NaN and signed infinities. -/
inductive JsNum where
  | num (q : Rat)
  | nan
  | pinf
  | ninf
deriving DecidableEq, Repr

namespace JsNum

/-- Addition with JS special-value propagation. -/
def add : JsNum → JsNum → JsNum
  | nan, _ => nan
  | _, nan => nan
  | pinf, ninf => nan
  | ninf, pinf => nan
  | pinf, _ => pinf
  | _, pinf => pinf
  | ninf, _ => ninf
  | _, ninf => ninf
  | num a, num b => num (a + b)

/-- Negation. -/
def neg : JsNum → JsNum
  | num a => num (-a)
  | nan => nan
  | pinf => ninf
  | ninf => pinf

/-- Subtraction, `a - b = a + (-b)`. -/
def sub (a b : JsNum) : JsNum := add a (neg b)

/-- Multiplication with JS special-value propagation (`Infinity * 0 = NaN`). -/
def mul : JsNum → JsNum → JsNum
  | nan, _ => nan
  | _, nan => nan
  | num a, num b => num (a * b)
  | pinf, pinf => pinf
  | pinf, ninf => ninf
  | ninf, pinf => ninf
  | ninf, ninf => pinf
  | pinf, num b => if 0 < b then pinf else if b < 0 then ninf else nan
  | num a, pinf => if 0 < a then pinf else if a < 0 then ninf else nan
  | ninf, num b => if 0 < b then ninf else if b < 0 then pinf else nan
  | num a, ninf => if 0 < a then ninf else if a < 0 then pinf else nan

/-- Halving (`x / 2`). -/
def half : JsNum → JsNum
  | num a => num (a / 2)
  | nan => nan
  | pinf => pinf
  | ninf => ninf

/-- Strict comparison `a < b`; any comparison involving NaN is false. -/
def lt : JsNum → JsNum → Bool
  | nan, _ => false
  | _, nan => false
  | num a, num b => decide (a < b)
  | ninf, ninf => false
  | ninf, _ => true
  | _, ninf => false
  | pinf, _ => false
  | num _, pinf => true

/-- JS truthiness of a number: `0` and `NaN` are falsy. -/
def truthy : JsNum → Bool
  | num a => decide (a ≠ 0)
  | nan => false
  | pinf => true
  | ninf => true

end JsNum

/-- Model of `opt || d` for an optional JS number (`undefined`, `0` and
`NaN` all fall through to the default). -/
def jsOr (o : Option JsNum) (d : JsNum) : JsNum :=
  match o with
  | some v => if v.truthy then v else d
  | none => d

/-- Model of `opt || d` for an optional JS string (the empty string is falsy). -/
def jsOrStr (o : Option String) (d : String) : String :=
  match o with
  | some s => if s = "" then d else s
  | none => d

/-- Truthiness of an optional JS string (used by `if (node.label)` etc.). -/
def strTruthy : Option String → Bool
  | some s => decide (s ≠ "")
  | none => false

/-! ## Lexer (src/lib/dsl/lexer.ts) -/

/-- Token classes of the lexer, one per `createToken` call. -/
inductive TokenKind where
  | whiteSpace
  | comment
  | arrowBiDirectional
  | arrowDottedRight
  | arrowThickRight
  | arrowLeft
  | arrowRight
  | lineTok
  | stringLiteral
  | colorLiteral
  | numberLiteral
  | styleKw
  | layoutKw
  | groupKw
  | arrowKw
  | shapeRectangle
  | shapeRect
  | shapeBox
  | shapeEllipse
  | shapeCircle
  | shapeOval
  | shapeDiamond
  | shapeDatabase
  | shapeCylinder
  | shapeDb
  | identifier
  | lCurly
  | rCurly
  | lParen
  | rParen
  | colon
  | comma
  | dot
deriving DecidableEq, Repr

/-- Lexed token: kind and matched image. -/
structure Token where
  kind : TokenKind
  image : List Char
deriving DecidableEq, Repr

/-- JS `\s` for the character set reachable here. -/
def isWsChar (c : Char) : Bool :=
  c = ' ' || c = '\t' || c = '\n' || c = '\r' || c = '\x0b' || c = '\x0c'

def isHexDigit (c : Char) : Bool :=
  c.isDigit || ('a' ≤ c && c ≤ 'f') || ('A' ≤ c && c ≤ 'F')

def isIdentStart (c : Char) : Bool :=
  ('a' ≤ c && c ≤ 'z') || ('A' ≤ c && c ≤ 'Z') || c = '_'

def isIdentChar (c : Char) : Bool :=
  isIdentStart c || c.isDigit

/-- Anchored match for `/\s+/`. -/
def matchWhiteSpace (cs : List Char) : Option (List Char) :=
  let w := cs.takeWhile isWsChar
  if w.isEmpty then none else some w

/-- Anchored match for `/#[^\n]*/` (comment runs to end of line). -/
def matchComment : List Char → Option (List Char)
  | c :: rest => if c = '#' then some (c :: rest.takeWhile (fun x => x ≠ '\n')) else none
  | [] => none

/-- Anchored match of a literal pattern such as `/group/`. -/
def matchLit (lit : List Char) (cs : List Char) : Option (List Char) :=
  if lit.isPrefixOf cs then some lit else none

/-- Anchored match for `/"[^"]*"/`. -/
def matchStringLiteral : List Char → Option (List Char)
  | c :: rest =>
    if c = '"' then
      let body := rest.takeWhile (fun x => x ≠ '"')
      match rest.drop body.length with
      | '"' :: _ => some (c :: (body ++ ['"']))
      | _ => none
    else none
  | [] => none

/-- Anchored match for `/#[a-fA-F0-9]{3,6}/` (greedy up to 6). -/
def matchColorLiteral : List Char → Option (List Char)
  | c :: rest =>
    if c = '#' then
      let hex := rest.takeWhile isHexDigit
      if 3 ≤ hex.length then some (c :: hex.take 6) else none
    else none
  | [] => none

/-- Anchored match for the number pattern: optional leading minus, digits. -/
def matchNumberLiteral : List Char → Option (List Char)
  | c :: rest =>
    if c = '-' then
      let ds := rest.takeWhile Char.isDigit
      if ds.isEmpty then none else some (c :: ds)
    else
      let ds := (c :: rest).takeWhile Char.isDigit
      if ds.isEmpty then none else some ds
  | [] => none

/-- Anchored match for `/[a-zA-Z_][a-zA-Z0-9_]*/`. -/
def matchIdentifier : List Char → Option (List Char)
  | c :: rest => if isIdentStart c then some (c :: rest.takeWhile isIdentChar) else none
  | [] => none

/-- One entry of the lexer's token-type list. -/
structure TokenDef where
  kind : TokenKind
  matchFn : List Char → Option (List Char)
  skipped : Bool := false
  longerAltIdent : Bool := false

/-- The lexer's token list, in the exact order of `allTokens` in lexer.ts.
Chevrotain tries these in order and keeps the first match. -/
def allTokens : List TokenDef :=
  [ { kind := .whiteSpace, matchFn := matchWhiteSpace, skipped := true },
    { kind := .comment, matchFn := matchComment, skipped := true },
    { kind := .arrowBiDirectional, matchFn := matchLit ['<', '-', '>'] },
    { kind := .arrowDottedRight, matchFn := matchLit ['-', '-', '>'] },
    { kind := .arrowThickRight, matchFn := matchLit ['=', '=', '>'] },
    { kind := .arrowLeft, matchFn := matchLit ['<', '-'] },
    { kind := .arrowRight, matchFn := matchLit ['-', '>'] },
    { kind := .lineTok, matchFn := matchLit ['-', '-'] },
    { kind := .stringLiteral, matchFn := matchStringLiteral },
    { kind := .colorLiteral, matchFn := matchColorLiteral },
    { kind := .numberLiteral, matchFn := matchNumberLiteral },
    { kind := .styleKw, matchFn := matchLit ['@', 's', 't', 'y', 'l', 'e'] },
    { kind := .layoutKw, matchFn := matchLit ['@', 'l', 'a', 'y', 'o', 'u', 't'] },
    { kind := .groupKw, matchFn := matchLit ['g', 'r', 'o', 'u', 'p'], longerAltIdent := true },
    { kind := .arrowKw, matchFn := matchLit ['a', 'r', 'r', 'o', 'w'], longerAltIdent := true },
    { kind := .shapeRectangle, matchFn := matchLit ['r', 'e', 'c', 't', 'a', 'n', 'g', 'l', 'e'],
      longerAltIdent := true },
    { kind := .shapeRect, matchFn := matchLit ['r', 'e', 'c', 't'], longerAltIdent := true },
    { kind := .shapeBox, matchFn := matchLit ['b', 'o', 'x'], longerAltIdent := true },
    { kind := .shapeEllipse, matchFn := matchLit ['e', 'l', 'l', 'i', 'p', 's', 'e'],
      longerAltIdent := true },
    { kind := .shapeCircle, matchFn := matchLit ['c', 'i', 'r', 'c', 'l', 'e'],
      longerAltIdent := true },
    { kind := .shapeOval, matchFn := matchLit ['o', 'v', 'a', 'l'], longerAltIdent := true },
    { kind := .shapeDiamond, matchFn := matchLit ['d', 'i', 'a', 'm', 'o', 'n', 'd'],
      longerAltIdent := true },
    { kind := .shapeDatabase, matchFn := matchLit ['d', 'a', 't', 'a', 'b', 'a', 's', 'e'],
      longerAltIdent := true },
    { kind := .shapeCylinder, matchFn := matchLit ['c', 'y', 'l', 'i', 'n', 'd', 'e', 'r'],
      longerAltIdent := true },
    { kind := .shapeDb, matchFn := matchLit ['d', 'b'], longerAltIdent := true },
    { kind := .identifier, matchFn := matchIdentifier },
    { kind := .lCurly, matchFn := matchLit ['{'] },
    { kind := .rCurly, matchFn := matchLit ['}'] },
    { kind := .lParen, matchFn := matchLit ['('] },
    { kind := .rParen, matchFn := matchLit [')'] },
    { kind := .colon, matchFn := matchLit [':'] },
    { kind := .comma, matchFn := matchLit [','] },
    { kind := .dot, matchFn := matchLit ['.'] } ]

/-- First token definition in the list whose pattern matches. -/
def findFirstMatch : List TokenDef → List Char → Option (TokenDef × List Char)
  | [], _ => none
  | d :: ds, cs =>
    match d.matchFn cs with
    | some img => some (d, img)
    | none => findFirstMatch ds cs

/-- Apply the `longer_alt: Identifier` rule: if the winning token has the
longer-alt flag and an identifier match is strictly longer, emit the
Identifier instead. -/
def resolveLongerAlt (d : TokenDef) (img : List Char) (cs : List Char) : TokenKind × List Char :=
  if d.longerAltIdent then
    match matchIdentifier cs with
    | some img2 => if img.length < img2.length then (TokenKind.identifier, img2) else (d.kind, img)
    | none => (d.kind, img)
  else (d.kind, img)

/-- Lexer driver.  On a position with no match the offending character is
skipped and a lexical error recorded (chevrotain's error recovery); the
fuel is the input length, sufficient since every step consumes at least
one character. -/
def tokenizeAux : Nat → List Char → List Token × List String
  | _, [] => ([], [])
  | 0, _ => ([], ["lexer fuel exhausted"])
  | Nat.succ fuel, cs =>
    match findFirstMatch allTokens cs with
    | some (d, img) =>
      let r := resolveLongerAlt d img cs
      let rest := cs.drop r.2.length
      let out := tokenizeAux fuel rest
      if d.skipped then out else ({ kind := r.1, image := r.2 } :: out.1, out.2)
    | none =>
      let out := tokenizeAux fuel cs.tail
      (out.1, "unexpected character" :: out.2)

/-- Contract of `tokenize(text)`: the token sequence and the lexical errors.
Error payloads (positions) are not modelled; only their presence is
observable through `parse`. -/
def tokenize (cs : List Char) : List Token × List String :=
  tokenizeAux cs.length cs

/-! ## AST (src/lib/dsl/ast.ts) -/

/-- ShapeTypeAST. -/
inductive ShapeTypeAST where
  | rect
  | circle
  | diamond
  | cylinder
deriving DecidableEq, Repr

/-- ArrowTypeAST. -/
inductive ArrowTypeAST where
  | right
  | left
  | both
  | dotted
  | thick
  | line
deriving DecidableEq, Repr

/-- StyleProps: sparse property bag; `none` is JS `undefined` (unset). -/
structure StyleProps where
  fill : Option String := none
  stroke : Option String := none
  strokeWidth : Option JsNum := none
  x : Option JsNum := none
  y : Option JsNum := none
  width : Option JsNum := none
  height : Option JsNum := none
  x1 : Option JsNum := none
  y1 : Option JsNum := none
  x2 : Option JsNum := none
  y2 : Option JsNum := none
deriving DecidableEq, Repr

/-- NodeAST (the `type: "node"` tag is carried by the statement wrapper). -/
structure NodeAST where
  id : String
  label : Option String := none
  shape : Option ShapeTypeAST := none
  style : Option StyleProps := none
deriving DecidableEq, Repr

/-- EdgeAST; `from`/`to` are Lean keywords so the fields are `fromId`/`toId`.
The visitor also writes optional anchor overrides x1..y2 onto edges. -/
structure EdgeAST where
  fromId : String
  toId : String
  label : Option String := none
  arrowType : ArrowTypeAST
  x1 : Option JsNum := none
  y1 : Option JsNum := none
  x2 : Option JsNum := none
  y2 : Option JsNum := none
deriving DecidableEq, Repr

/-- StatementAST: tagged union over node/edge/group/layout/freeArrow. -/
inductive StatementAST where
  | node (n : NodeAST)
  | edge (e : EdgeAST)
  | group (id : String) (style : Option StyleProps) (children : List StatementAST)
  | layout (algorithm : String)
  | freeArrow (x1 y1 x2 y2 : JsNum) (arrowType : ArrowTypeAST)

/-- ParseError; the location payload is not modelled (claims only observe
whether the error list is empty). -/
structure ParseError where
  message : String
deriving DecidableEq, Repr

/-- DocumentAST. -/
structure DocumentAST where
  statements : List StatementAST
  errors : List ParseError

/-! ## Parser / CST builder (parser.ts, PintoParser) -/

/-- Which shape keyword token a `shapeType` rule consumed. -/
inductive ShapeKw where
  | rect
  | box
  | rectangle
  | circle
  | oval
  | ellipse
  | diamond
  | cylinder
  | database
  | db
deriving DecidableEq, Repr

/-- Value alternative of a `styleProp` (which token the OR consumed). -/
inductive StylePropValue where
  | color (img : List Char)
  | number (img : List Char)
  | ident (img : List Char)
deriving DecidableEq, Repr

/-- CST of one `styleProp`. -/
structure StylePropCst where
  key : List Char
  value : StylePropValue
deriving DecidableEq, Repr

/-- CST of a `styleProps` list. -/
structure StylePropsCst where
  props : List StylePropCst
deriving DecidableEq, Repr

/-- CST of a `shapeSpec`. -/
structure ShapeSpecCst where
  shape : ShapeKw
  style : Option StylePropsCst
deriving DecidableEq, Repr

/-- CST of a `nodeRef`; `labelSpec` keeps the raw string image with quotes. -/
structure NodeRefCst where
  nodeId : List Char
  subId : Option (List Char) := none
  shapeSpec : Option ShapeSpecCst := none
  labelSpec : Option (List Char) := none
deriving DecidableEq, Repr

/-- Which arrow token an `arrow` rule consumed. -/
inductive ArrowCst where
  | biDirectional
  | dottedRight
  | thickRight
  | left
  | right
  | line
deriving DecidableEq, Repr

/-- CST of an `edgeOrNode`.  As in the chevrotain visitor context, the
anchor and label sub-CSTs are flattened lists in document order (the
visitor indexes them by arrow position). -/
structure EdgeOrNodeCst where
  left : NodeRefCst
  arrows : List ArrowCst
  rights : List NodeRefCst
  anchors : List StylePropsCst
  labels : List (List Char)
deriving DecidableEq, Repr

/-- CST of a `statement`. -/
inductive StatementCst where
  | groupDef (id : List Char) (style : Option StylePropsCst) (body : List StatementCst)
  | layoutDef (algorithm : List Char)
  | freeArrowDef (props : StylePropsCst)
  | edgeOrNode (e : EdgeOrNodeCst)

def peekKind (ts : List Token) : Option TokenKind :=
  ts.head?.map (·.kind)

def peekKind2 : List Token → Option TokenKind
  | _ :: t :: _ => some t.kind
  | _ => none

/-- Consume one token of the given kind or fail (chevrotain CONSUME). -/
def expectKind (k : TokenKind) (ts : List Token) : Except String (Token × List Token) :=
  match ts with
  | t :: rest => if t.kind = k then .ok (t, rest) else .error "unexpected token"
  | [] => .error "unexpected end of input"

/-- Lookahead set of the `statement` rule's OR. -/
def isStmtStart : Option TokenKind → Bool
  | some .groupKw => true
  | some .layoutKw => true
  | some .arrowKw => true
  | some .identifier => true
  | _ => false

def arrowCstOfKind : TokenKind → Option ArrowCst
  | .arrowBiDirectional => some .biDirectional
  | .arrowDottedRight => some .dottedRight
  | .arrowThickRight => some .thickRight
  | .arrowLeft => some .left
  | .arrowRight => some .right
  | .lineTok => some .line
  | _ => none

def shapeKwOfKind : TokenKind → Option ShapeKw
  | .shapeRect => some .rect
  | .shapeBox => some .box
  | .shapeRectangle => some .rectangle
  | .shapeCircle => some .circle
  | .shapeOval => some .oval
  | .shapeEllipse => some .ellipse
  | .shapeDiamond => some .diamond
  | .shapeCylinder => some .cylinder
  | .shapeDatabase => some .database
  | .shapeDb => some .db
  | _ => none

def isShapeKind (k : TokenKind) : Bool :=
  (shapeKwOfKind k).isSome

/-- Parse one `styleProp := Identifier ':' (ColorLiteral | NumberLiteral | Identifier)`. -/
def parseStyleProp (ts : List Token) : Except String (StylePropCst × List Token) := do
  let (keyTok, ts1) ← expectKind .identifier ts
  let (_, ts2) ← expectKind .colon ts1
  match ts2 with
  | t :: rest =>
    match t.kind with
    | .colorLiteral => .ok ({ key := keyTok.image, value := .color t.image }, rest)
    | .numberLiteral => .ok ({ key := keyTok.image, value := .number t.image }, rest)
    | .identifier => .ok ({ key := keyTok.image, value := .ident t.image }, rest)
    | _ => .error "expecting style value"
  | [] => .error "unexpected end of input"

/-- Parse `styleProps := styleProp (',' styleProp)*`. -/
def parseStylePropsAux : Nat → List Token → Except String (List StylePropCst × List Token)
  | 0, _ => .error "parser fuel exhausted"
  | fuel + 1, ts => do
    let (p, ts1) ← parseStyleProp ts
    match peekKind ts1 with
    | some .comma => do
      let (ps, ts2) ← parseStylePropsAux fuel ts1.tail
      .ok (p :: ps, ts2)
    | _ => .ok ([p], ts1)

/-- Parse `shapeSpec := '(' shapeType (',' styleProps)? ')'`. -/
def parseShapeSpec (fuel : Nat) (ts : List Token) : Except String (ShapeSpecCst × List Token) := do
  let (_, ts1) ← expectKind .lParen ts
  match ts1 with
  | t :: rest =>
    match shapeKwOfKind t.kind with
    | some sk =>
      match peekKind rest with
      | some .comma => do
        let (ps, ts2) ← parseStylePropsAux fuel rest.tail
        let (_, ts3) ← expectKind .rParen ts2
        .ok ({ shape := sk, style := some ⟨ps⟩ }, ts3)
      | _ => do
        let (_, ts3) ← expectKind .rParen rest
        .ok ({ shape := sk, style := none }, ts3)
    | none => .error "expecting shape type"
  | [] => .error "unexpected end of input"

/-- Parse `nodeRef := Identifier ('.' Identifier)? shapeSpec? labelSpec?`.
The options are entered exactly when chevrotain's lookahead would commit
to them: shapeSpec on `( <shape keyword>`, labelSpec on `: <string>`. -/
def parseNodeRef (fuel : Nat) (ts : List Token) : Except String (NodeRefCst × List Token) := do
  let (idTok, ts1) ← expectKind .identifier ts
  let (subId, ts2) ←
    match peekKind ts1 with
    | some .dot => do
      let (s, ts') ← expectKind .identifier ts1.tail
      pure (some s.image, ts')
    | _ => pure (none, ts1)
  let (shapeSp, ts3) ←
    if (peekKind ts2 == some TokenKind.lParen) && (peekKind2 ts2).any isShapeKind then do
      let (sp, ts') ← parseShapeSpec fuel ts2
      pure (some sp, ts')
    else pure (none, ts2)
  let (label, ts4) ←
    if (peekKind ts3 == some TokenKind.colon)
        && (peekKind2 ts3 == some TokenKind.stringLiteral) then do
      let (s, ts') ← expectKind .stringLiteral ts3.tail
      pure (some s.image, ts')
    else pure (none, ts3)
  .ok ({ nodeId := idTok.image, subId := subId, shapeSpec := shapeSp, labelSpec := label }, ts4)

/-- Parse the MANY tail of `edgeOrNode`: `(arrow nodeRef anchorSpec? labelSpec?)*`,
collecting flattened lists as the chevrotain context does. -/
def parseEdgeTails : Nat → List Token →
    Except String ((List ArrowCst × List NodeRefCst × List StylePropsCst × List (List Char)) × List Token)
  | 0, _ => .error "parser fuel exhausted"
  | fuel + 1, ts =>
    match ts with
    | t :: rest =>
      match arrowCstOfKind t.kind with
      | some a => do
        let (nr, ts1) ← parseNodeRef fuel rest
        let (anchor, ts2) ←
          if (peekKind ts1 == some TokenKind.lParen)
              && (peekKind2 ts1 == some TokenKind.identifier) then do
            let (_, ta) ← expectKind .lParen ts1
            let (ps, tb) ← parseStylePropsAux fuel ta
            let (_, tc) ← expectKind .rParen tb
            pure (some (StylePropsCst.mk ps), tc)
          else pure (none, ts1)
        let (label, ts3) ←
          if (peekKind ts2 == some TokenKind.colon)
              && (peekKind2 ts2 == some TokenKind.stringLiteral) then do
            let (s, td) ← expectKind .stringLiteral ts2.tail
            pure (some s.image, td)
          else pure (none, ts2)
        let (tails, ts4) ← parseEdgeTails fuel ts3
        let (aas, rs, ans, ls) := tails
        .ok ((a :: aas, nr :: rs,
              (match anchor with | some x => x :: ans | none => ans),
              (match label with | some x => x :: ls | none => ls)), ts4)
      | none => .ok (([], [], [], []), ts)
    | [] => .ok (([], [], [], []), ts)

/-- Parse `edgeOrNode := nodeRef (arrow nodeRef anchorSpec? labelSpec?)*`. -/
def parseEdgeOrNode (fuel : Nat) (ts : List Token) : Except String (EdgeOrNodeCst × List Token) := do
  let (left, ts1) ← parseNodeRef fuel ts
  let (tails, ts2) ← parseEdgeTails fuel ts1
  let (aas, rs, ans, ls) := tails
  .ok ({ left := left, arrows := aas, rights := rs, anchors := ans, labels := ls }, ts2)

/-- Parse `layoutDef := '@layout' ':' Identifier`. -/
def parseLayoutDef (ts : List Token) : Except String (StatementCst × List Token) := do
  let (_, ts1) ← expectKind .layoutKw ts
  let (_, ts2) ← expectKind .colon ts1
  let (idTok, ts3) ← expectKind .identifier ts2
  .ok (.layoutDef idTok.image, ts3)

/-- Parse `freeArrowDef := 'arrow' '(' styleProps ')'`. -/
def parseFreeArrowDef (fuel : Nat) (ts : List Token) : Except String (StatementCst × List Token) := do
  let (_, ts1) ← expectKind .arrowKw ts
  let (_, ts2) ← expectKind .lParen ts1
  let (ps, ts3) ← parseStylePropsAux fuel ts2
  let (_, ts4) ← expectKind .rParen ts3
  .ok (.freeArrowDef ⟨ps⟩, ts4)

mutual

/-- Parse one `statement`, dispatching on the lookahead token as the
chevrotain OR does. -/
def parseStatement : Nat → List Token → Except String (StatementCst × List Token)
  | 0, _ => .error "parser fuel exhausted"
  | fuel + 1, ts =>
    match peekKind ts with
    | some .groupKw => parseGroupDef fuel ts
    | some .layoutKw => parseLayoutDef ts
    | some .arrowKw => parseFreeArrowDef fuel ts
    | some .identifier =>
      (parseEdgeOrNode fuel ts).map (fun r => (.edgeOrNode r.1, r.2))
    | _ => .error "expecting statement"

/-- Parse `groupDef := 'group' Identifier styleSpec? '{' statement* '}'`. -/
def parseGroupDef : Nat → List Token → Except String (StatementCst × List Token)
  | 0, _ => .error "parser fuel exhausted"
  | fuel + 1, ts => do
    let (_, ts1) ← expectKind .groupKw ts
    let (idTok, ts2) ← expectKind .identifier ts1
    let (style, ts3) ←
      if peekKind ts2 == some TokenKind.lParen then do
        let (_, ta) ← expectKind .lParen ts2
        let (ps, tb) ← parseStylePropsAux fuel ta
        let (_, tc) ← expectKind .rParen tb
        pure (some (StylePropsCst.mk ps), tc)
      else pure (none, ts2)
    let (_, ts4) ← expectKind .lCurly ts3
    let (body, ts5) ← parseStatements fuel ts4
    let (_, ts6) ← expectKind .rCurly ts5
    .ok (.groupDef idTok.image style body, ts6)

/-- Parse a MANY of statements (document top level and group bodies). -/
def parseStatements : Nat → List Token → Except String (List StatementCst × List Token)
  | 0, _ => .error "parser fuel exhausted"
  | fuel + 1, ts =>
    if isStmtStart (peekKind ts) then do
      let (s, ts1) ← parseStatement fuel ts
      let (ss, ts2) ← parseStatements fuel ts1
      .ok (s :: ss, ts2)
    else .ok ([], ts)

end

/-- Parse `document := statement*`; leftover tokens are a parse error
(chevrotain's NotAllInputParsed). -/
def parseDocument (fuel : Nat) (ts : List Token) : Except String (List StatementCst) := do
  let (ss, rest) ← parseStatements fuel ts
  if rest.isEmpty then .ok ss else .error "redundant input, expecting EOF"

/-! ## AST visitor (parser.ts, PintoASTVisitor) -/

/-- The visitor's node registry `this.nodes`: a JS Map, modelled as an
insertion-ordered association list. -/
abbrev Registry := List (String × NodeAST)

def regGet (r : Registry) (id : String) : Option NodeAST :=
  (r.find? (fun p => p.1 == id)).map (·.2)

/-- Update the value stored under an existing key, keeping its position
(JS Map iteration order semantics). -/
def regSet : Registry → String → NodeAST → Registry
  | [], _, _ => []
  | p :: rest, id, n => if p.1 == id then (id, n) :: rest else p :: regSet rest id n

/-- Spread-merge of style bags: a key of the incoming style wins exactly
when it is set there, otherwise the existing key survives. -/
def mergeStyle (old : Option StyleProps) (incoming : StyleProps) : StyleProps :=
  match old with
  | none => incoming
  | some o =>
    { fill := incoming.fill <|> o.fill
      stroke := incoming.stroke <|> o.stroke
      strokeWidth := incoming.strokeWidth <|> o.strokeWidth
      x := incoming.x <|> o.x
      y := incoming.y <|> o.y
      width := incoming.width <|> o.width
      height := incoming.height <|> o.height
      x1 := incoming.x1 <|> o.x1
      y1 := incoming.y1 <|> o.y1
      x2 := incoming.x2 <|> o.x2
      y2 := incoming.y2 <|> o.y2 }

/-- Merge a re-encountered node into the existing registry record
(the `// Merge properties` branch of `edgeOrNode`). -/
def mergeNode (existing incoming : NodeAST) : NodeAST :=
  { existing with
    label := if strTruthy incoming.label then incoming.label else existing.label
    shape := match incoming.shape with | some s => some s | none => existing.shape
    style := match incoming.style with
      | some s => some (mergeStyle existing.style s)
      | none => existing.style }

/-- Ensure a node exists in the registry, merging if already present
(the `// Ensure node exists` logic of `edgeOrNode`). -/
def registerNode (r : Registry) (n : NodeAST) : Registry :=
  match regGet r n.id with
  | none => r ++ [(n.id, n)]
  | some old => regSet r n.id (mergeNode old n)

/-- Strip the surrounding quotes from a string-literal image (`slice(1, -1)`). -/
def stripQuotes (img : List Char) : String :=
  String.mk ((img.drop 1).dropLast)

def digitsToNat (ds : List Char) : Nat :=
  ds.foldl (fun acc c => acc * 10 + (c.toNat - 48)) 0

def intOfImage : List Char → Int
  | '-' :: ds => -(digitsToNat ds : Int)
  | ds => (digitsToNat ds : Int)

/-- JS `Number(value)` on the images a style value can carry: a number
literal parses to its integer; a color literal is NaN; an identifier is
NaN except the literal spelling `Infinity`. -/
def numberOfValue : StylePropValue → JsNum
  | .number img => .num ((intOfImage img : Int) : Rat)
  | .color img => if String.mk img = "Infinity" then .pinf else .nan
  | .ident img => if String.mk img = "Infinity" then .pinf else .nan

/-- Raw image of a style value (what the visitor calls `value`). -/
def valueString : StylePropValue → String
  | .color img => String.mk img
  | .number img => String.mk img
  | .ident img => String.mk img

/-- One `if (key === ...)` cascade step of the `styleProps` visitor. -/
def applyStyleProp (st : StyleProps) (p : StylePropCst) : StyleProps :=
  let key := String.mk p.key
  let vs := valueString p.value
  let vn := numberOfValue p.value
  if key = "fill" then { st with fill := some vs }
  else if key = "stroke" then { st with stroke := some vs }
  else if key = "strokeWidth" then { st with strokeWidth := some vn }
  else if key = "x" then { st with x := some vn }
  else if key = "y" then { st with y := some vn }
  else if key = "width" then { st with width := some vn }
  else if key = "height" then { st with height := some vn }
  else if key = "x1" then { st with x1 := some vn }
  else if key = "y1" then { st with y1 := some vn }
  else if key = "x2" then { st with x2 := some vn }
  else if key = "y2" then { st with y2 := some vn }
  else st

def visitStyleProps (c : StylePropsCst) : StyleProps :=
  c.props.foldl applyStyleProp {}

def visitShapeType : ShapeKw → ShapeTypeAST
  | .rect => .rect
  | .box => .rect
  | .rectangle => .rect
  | .circle => .circle
  | .oval => .circle
  | .ellipse => .circle
  | .diamond => .diamond
  | .cylinder => .cylinder
  | .database => .cylinder
  | .db => .cylinder

def visitArrow : ArrowCst → ArrowTypeAST
  | .biDirectional => .both
  | .dottedRight => .dotted
  | .thickRight => .thick
  | .left => .left
  | .right => .right
  | .line => .line

/-- The `nodeRef` visitor: compound dotted id, optional shape/style/label. -/
def visitNodeRef (nr : NodeRefCst) : NodeAST :=
  let id :=
    match nr.subId with
    | some s => String.mk nr.nodeId ++ "." ++ String.mk s
    | none => String.mk nr.nodeId
  { id := id
    shape := nr.shapeSpec.map (fun sp => visitShapeType sp.shape)
    style := (nr.shapeSpec.bind (·.style)).map visitStyleProps
    label := nr.labelSpec.map stripQuotes }

/-- The edge-emitting loop of the `edgeOrNode` visitor: thread the previous
node id across the chain, register every right node, and attach the
anchor/label sub-CSTs indexed by arrow position. -/
def visitEdgeChain (anchors : List StylePropsCst) (labels : List (List Char)) :
    Registry → String → Nat → List ArrowCst → List NodeRefCst → Registry × List StatementAST
  | reg, _, _, [], _ => (reg, [])
  | reg, _, _, _ :: _, [] => (reg, [])
  | reg, prevId, i, a :: aas, r :: rs =>
    let rightNode := visitNodeRef r
    let reg1 := registerNode reg rightNode
    let anchorStyle := anchors[i]?.map visitStyleProps
    let edge : EdgeAST :=
      { fromId := prevId
        toId := rightNode.id
        arrowType := visitArrow a
        x1 := anchorStyle.bind (·.x1)
        y1 := anchorStyle.bind (·.y1)
        x2 := anchorStyle.bind (·.x2)
        y2 := anchorStyle.bind (·.y2)
        label := labels[i]?.map stripQuotes }
    let rest := visitEdgeChain anchors labels reg1 rightNode.id (i + 1) aas rs
    (rest.1, .edge edge :: rest.2)

/-- The `edgeOrNode` visitor: only edges are returned; nodes go to the
registry. -/
def visitEdgeOrNode (reg : Registry) (e : EdgeOrNodeCst) : Registry × List StatementAST :=
  let leftNode := visitNodeRef e.left
  let reg1 := registerNode reg leftNode
  visitEdgeChain e.anchors e.labels reg1 leftNode.id 0 e.arrows e.rights

mutual

/-- The `statement` visitor (array results are flattened by the caller). -/
def visitStatement (reg : Registry) : StatementCst → Registry × List StatementAST
  | .groupDef id style body =>
    let res := visitStatementList reg body
    (res.1, [.group (String.mk id) (style.map visitStyleProps) res.2])
  | .layoutDef alg => (reg, [.layout (String.mk alg)])
  | .freeArrowDef props =>
    let p := visitStyleProps props
    (reg, [.freeArrow (jsOr p.x1 (.num 0)) (jsOr p.y1 (.num 0))
            (jsOr p.x2 (.num 0)) (jsOr p.y2 (.num 0)) .right])
  | .edgeOrNode e => visitEdgeOrNode reg e

/-- Statement collection shared by `document` and `groupDef` bodies. -/
def visitStatementList (reg : Registry) : List StatementCst → Registry × List StatementAST
  | [] => (reg, [])
  | s :: ss =>
    let r1 := visitStatement reg s
    let r2 := visitStatementList r1.1 ss
    (r2.1, r1.2 ++ r2.2)

end

/-- The `document` visitor: collect statements with a fresh registry, then
unshift every registered node whose id is not already present as an
explicit Node statement (each insertion goes to position 0). -/
def visitDocument (cst : List StatementCst) : DocumentAST :=
  let res := visitStatementList [] cst
  let statements := res.2
  let definedNodeIds := statements.filterMap
    (fun s => match s with | .node n => some n.id | _ => none)
  let finalStatements := res.1.foldl
    (fun acc p => if definedNodeIds.contains p.1 then acc else .node p.2 :: acc) statements
  { statements := finalStatements, errors := [] }

/-- Contract of `parse(input)`: lexical errors short-circuit to an empty
statement list; parser errors likewise; otherwise the visitor output (whose
error list is empty).  With chevrotain recovery the source may accumulate
several parse diagnostics where this model stops at the first, but `parse`
only ever exposes whether that list is nonempty (the CST is discarded). -/
def parse (input : String) : DocumentAST :=
  let lexed := tokenize input.toList
  if lexed.2.isEmpty then
    match parseDocument (4 * lexed.1.length + 16) lexed.1 with
    | .error e => { statements := [], errors := [⟨e⟩] }
    | .ok cst => visitDocument cst
  else
    { statements := [], errors := lexed.2.map (fun m => ⟨m⟩) }

/-! ## Canvas shapes (src/lib/canvas/types.ts) -/

/-- Fields shared by all shapes (BaseShape). -/
structure BaseProps where
  id : String
  x : JsNum
  y : JsNum
  rotation : JsNum
  stroke : String
  strokeWidth : JsNum
  fill : String
  opacity : JsNum
deriving DecidableEq, Repr

/-- Point with JS-number coordinates. -/
structure JsPoint where
  x : JsNum
  y : JsNum
deriving DecidableEq, Repr

/-- Shape: tagged union over rectangle/ellipse/line/arrow/freehand/text.
Line and arrow carry optional connection references (shape ids). -/
inductive Shape where
  | rectangle (base : BaseProps) (width height cornerRadius : JsNum)
  | ellipse (base : BaseProps) (width height : JsNum)
  | line (base : BaseProps) (points : List JsPoint)
      (startConnection endConnection : Option String)
  | arrow (base : BaseProps) (points : List JsPoint) (startArrow endArrow : Bool)
      (startConnection endConnection : Option String)
  | freehand (base : BaseProps) (points : List JsPoint)
  | text (base : BaseProps) (content : String) (fontSize : JsNum) (fontFamily : String)
      (width height : JsNum)
deriving DecidableEq, Repr

/-- Base-field projection. -/
def Shape.base : Shape → BaseProps
  | .rectangle b _ _ _ => b
  | .ellipse b _ _ => b
  | .line b _ _ _ => b
  | .arrow b _ _ _ _ _ => b
  | .freehand b _ => b
  | .text b _ _ _ _ _ => b

/-- Point list of a line or arrow shape. -/
def connectorPoints : Shape → Option (List JsPoint)
  | .arrow _ points _ _ _ _ => some points
  | .line _ points _ _ => some points
  | _ => none

/-! ## Layout compiler (src/lib/dsl/compiler.ts) -/

/-- Default dimensions lookup table (SHAPE_DIMENSIONS). -/
structure ShapeDims where
  width : Rat
  height : Rat
deriving DecidableEq, Repr

def SHAPE_DIMENSIONS : ShapeTypeAST → ShapeDims
  | .rect => ⟨120, 60⟩
  | .circle => ⟨80, 80⟩
  | .diamond => ⟨100, 100⟩
  | .cylinder => ⟨80, 100⟩

def DEFAULT_SHAPE : ShapeTypeAST := .rect

/-- CompileOptions with their documented defaults. -/
structure CompileOptions where
  algorithm : String := "layered"
  direction : String := "DOWN"
  nodeSpacing : Rat := 50
  edgeSpacing : Rat := 20
deriving DecidableEq, Repr

/-- Fresh shape-id supply: `generateId()` (crypto.randomUUID) is modelled
as a deterministic counter.  Shape ids are opaque fresh values; no claim
inspects them. -/
def generateId (n : Nat) : String := "id-" ++ toString n

/-- Shape synthesis for a node (`createNodeShape`); the source's first
parameter is unused there (`_id`), the actual shape id comes from
`generateId`, passed here as `fresh`. -/
def createNodeShape (_id : String) (fresh : String) (x y width height : JsNum)
    (astNode : NodeAST) : Shape :=
  let baseProps : BaseProps :=
    { id := fresh
      x := x
      y := y
      rotation := .num 0
      stroke := jsOrStr (astNode.style.bind (·.stroke)) "#000000"
      strokeWidth := jsOr (astNode.style.bind (·.strokeWidth)) (.num 2)
      fill := jsOrStr (astNode.style.bind (·.fill)) "#ffffff"
      opacity := .num 1 }
  match astNode.shape.getD DEFAULT_SHAPE with
  | .circle => .ellipse baseProps width height
  | .diamond => .rectangle baseProps width height (.num 0)
  | .cylinder => .rectangle baseProps width height (.num 8)
  | .rect => .rectangle baseProps width height (.num 4)

/-- Connector synthesis from a point list (`createArrowFromPoints`):
arrowType `line` gives a line shape, every other arrowType an arrow shape
with `startArrow = (left or both)`, `endArrow = (not left)`. -/
def createArrowFromPoints (fresh : String) (points : List JsPoint) (astEdge : EdgeAST) : Shape :=
  let baseProps : BaseProps :=
    { id := fresh
      x := .num 0
      y := .num 0
      rotation := .num 0
      stroke := "#000000"
      strokeWidth := .num 2
      fill := "transparent"
      opacity := .num 1 }
  if astEdge.arrowType = .line then
    .line baseProps points none none
  else
    .arrow baseProps points
      (astEdge.arrowType == .left || astEdge.arrowType == .both)
      (!(astEdge.arrowType == .left))
      none none

/-- JS `Map.set` semantics for the compiler's `nodesMap`: wholesale value
replacement, insertion position kept. -/
def mapSet (r : Registry) (id : String) (n : NodeAST) : Registry :=
  match regGet r id with
  | some _ => regSet r id n
  | none => r ++ [(id, n)]

/-- One step of the statement scan of `compile`: node statements are set
wholesale, edge statements are recorded and their endpoints synthesized
into the map when missing, groups are collected but never used, other
statements are ignored. -/
def extractStep : Registry × List EdgeAST → StatementAST → Registry × List EdgeAST
  | (reg, edges), .node n => (mapSet reg n.id n, edges)
  | (reg, edges), .edge e =>
    let reg1 := if (regGet reg e.fromId).isSome then reg else mapSet reg e.fromId { id := e.fromId }
    let reg2 := if (regGet reg1 e.toId).isSome then reg1 else mapSet reg1 e.toId { id := e.toId }
    (reg2, edges ++ [e])
  | (reg, edges), .group _ _ _ => (reg, edges)
  | (reg, edges), .layout _ => (reg, edges)
  | (reg, edges), .freeArrow _ _ _ _ _ => (reg, edges)

def extractGraph (stmts : List StatementAST) : Registry × List EdgeAST :=
  stmts.foldl extractStep ([], [])

/-- Mode predicate: every node in the map has both `x` and `y` style values
(`!== undefined`; NaN still counts as present). -/
def allHavePositions (reg : Registry) : Bool :=
  reg.all (fun p => (p.2.style.bind (·.x)).isSome && (p.2.style.bind (·.y)).isSome)

/-- The non-null style accesses `node.style!.x!`, guarded by
`allHavePositions` in the source. -/
def styleX (n : NodeAST) : JsNum := (n.style.bind (·.x)).getD (.num 0)

def styleY (n : NodeAST) : JsNum := (n.style.bind (·.y)).getD (.num 0)

/-- The width used in explicit mode: `node.style?.width || dims.width`. -/
def explicitWidth (n : NodeAST) : JsNum :=
  jsOr (n.style.bind (·.width)) (.num (SHAPE_DIMENSIONS (n.shape.getD DEFAULT_SHAPE)).width)

/-- The height used in explicit mode: `node.style?.height || dims.height`. -/
def explicitHeight (n : NodeAST) : JsNum :=
  jsOr (n.style.bind (·.height)) (.num (SHAPE_DIMENSIONS (n.shape.getD DEFAULT_SHAPE)).height)

/-- Node center used for explicit-mode connectors:
`style.x + (style.width || dims.width) / 2` and likewise for y. -/
def explicitCenter (n : NodeAST) : JsPoint :=
  ⟨(styleX n).add (explicitWidth n).half, (styleY n).add (explicitHeight n).half⟩

/-- Explicit-mode node loop. -/
def compileExplicitNodes : Nat → Registry → List Shape
  | _, [] => []
  | i, p :: rest =>
    createNodeShape p.1 (generateId i) (styleX p.2) (styleY p.2)
        (explicitWidth p.2) (explicitHeight p.2) p.2
      :: compileExplicitNodes (i + 1) rest

/-- Explicit-mode edge loop: straight two-point connector between the
endpoint nodes' centers; edges with unknown endpoints are skipped. -/
def compileExplicitEdges (reg : Registry) : Nat → List EdgeAST → List Shape
  | _, [] => []
  | i, e :: rest =>
    match regGet reg e.fromId, regGet reg e.toId with
    | some fn, some tn =>
      createArrowFromPoints (generateId i) [explicitCenter fn, explicitCenter tn] e
        :: compileExplicitEdges reg (i + 1) rest
    | _, _ => compileExplicitEdges reg i rest

/-! The external graph-layout collaborator (ELK) is modelled at its
interface: `compile` receives the collaborator as a function from the
submitted graph to its layout result. -/

structure ElkChildIn where
  id : String
  width : Rat
  height : Rat
  labels : List String
deriving DecidableEq, Repr

structure ElkEdgeIn where
  id : String
  sources : List String
  targets : List String
  labels : List String
deriving DecidableEq, Repr

structure ElkGraphIn where
  layoutOptions : List (String × String)
  children : List ElkChildIn
  edges : List ElkEdgeIn
deriving DecidableEq, Repr

structure ElkChildOut where
  id : String
  x : Option JsNum := none
  y : Option JsNum := none
  width : Option JsNum := none
  height : Option JsNum := none
deriving DecidableEq, Repr

structure ElkSection where
  startPoint : JsPoint
  bendPoints : Option (List JsPoint) := none
  endPoint : JsPoint
deriving DecidableEq, Repr

structure ElkEdgeOut where
  sections : Option (List ElkSection) := none
deriving DecidableEq, Repr

structure ElkGraphOut where
  children : Option (List ElkChildOut) := none
  edges : Option (List ElkEdgeOut) := none
deriving DecidableEq, Repr

/-- JS `label ? [{text: label}] : []`. -/
def jsLabelList : Option String → List String
  | some l => if l = "" then [] else [l]
  | none => []

/-- Graph submitted to the collaborator in automatic mode. -/
def buildElkGraph (opts : CompileOptions) (reg : Registry) (edges : List EdgeAST) : ElkGraphIn :=
  { layoutOptions :=
      [("elk.algorithm", opts.algorithm),
       ("elk.direction", opts.direction),
       ("elk.spacing.nodeNode", toString opts.nodeSpacing),
       ("elk.spacing.edgeEdge", toString opts.edgeSpacing),
       ("elk.layered.spacing.nodeNodeBetweenLayers", toString opts.nodeSpacing)]
    children := reg.map (fun p =>
      let dims := SHAPE_DIMENSIONS (p.2.shape.getD DEFAULT_SHAPE)
      { id := p.1, width := dims.width, height := dims.height, labels := jsLabelList p.2.label })
    edges := edges.enum.map (fun pe =>
      { id := "e" ++ toString pe.1
        sources := [pe.2.fromId]
        targets := [pe.2.toId]
        labels := jsLabelList pe.2.label }) }

/-- Center of a positioned collaborator node, with `|| 0` defaults. -/
def elkNodeCenter (n : ElkChildOut) : JsPoint :=
  ⟨(jsOr n.x (.num 0)).add ((jsOr n.width (.num 0)).half),
   (jsOr n.y (.num 0)).add ((jsOr n.height (.num 0)).half)⟩

/-- Routed polyline of a section list: start point, bend points, end point
per section, concatenated. -/
def sectionPoints : List ElkSection → List JsPoint
  | [] => []
  | s :: rest => (s.startPoint :: (s.bendPoints.getD [] ++ [s.endPoint])) ++ sectionPoints rest

/-- Fallback for an edge without routing information: straight line between
the layouted nodes' centers; null when an endpoint node is missing. -/
def createEdgeShapeFallback (fresh : String) (astEdge : EdgeAST) (graph : ElkGraphOut) :
    Option Shape :=
  let children := graph.children.getD []
  match children.find? (fun n => n.id == astEdge.fromId),
        children.find? (fun n => n.id == astEdge.toId) with
  | some sn, some tn =>
    some (createArrowFromPoints fresh [elkNodeCenter sn, elkNodeCenter tn] astEdge)
  | _, _ => none

/-- Edge synthesis in automatic mode (`createEdgeShape`). -/
def createEdgeShape (fresh : String) (elkEdge : ElkEdgeOut) (astEdge : EdgeAST)
    (graph : ElkGraphOut) : Option Shape :=
  match elkEdge.sections with
  | none => createEdgeShapeFallback fresh astEdge graph
  | some [] => createEdgeShapeFallback fresh astEdge graph
  | some sections => some (createArrowFromPoints fresh (sectionPoints sections) astEdge)

/-- Automatic-mode node loop: positioned children are mapped back to AST
nodes by id (unknown ids skipped) and placed at `x || 0`, `y || 0` with
`width || 120`, `height || 60`. -/
def compileAutoNodes (reg : Registry) : Nat → List ElkChildOut → List Shape
  | _, [] => []
  | i, c :: rest =>
    match regGet reg c.id with
    | some astNode =>
      createNodeShape c.id (generateId i) (jsOr c.x (.num 0)) (jsOr c.y (.num 0))
          (jsOr c.width (.num 120)) (jsOr c.height (.num 60)) astNode
        :: compileAutoNodes reg (i + 1) rest
    | none => compileAutoNodes reg i rest

/-- Automatic-mode edge loop; the source pairs result edges with AST edges
by index (an out-of-range index would fault in JS and is modelled as a
skip; no claim depends on it). -/
def compileAutoEdges (edges : List EdgeAST) (graph : ElkGraphOut) :
    Nat → Nat → List ElkEdgeOut → List Shape
  | _, _, [] => []
  | i, idGen, ee :: rest =>
    match edges[i]? with
    | some astEdge =>
      match createEdgeShape (generateId idGen) ee astEdge graph with
      | some s => s :: compileAutoEdges edges graph (i + 1) (idGen + 1) rest
      | none => compileAutoEdges edges graph (i + 1) idGen rest
    | none => compileAutoEdges edges graph (i + 1) idGen rest

/-- Contract of `compile(ast, options)`: extract the logical graph from the
top-level statements, then either place every shape from explicit style
coordinates (when every node has x and y) without consulting the layout
collaborator, or submit the graph to the collaborator and realize its
result. -/
def compile (ast : DocumentAST) (opts : CompileOptions)
    (elkLayout : ElkGraphIn → ElkGraphOut) : List Shape :=
  let g := extractGraph ast.statements
  if allHavePositions g.1 then
    compileExplicitNodes 0 g.1 ++ compileExplicitEdges g.1 g.1.length g.2
  else
    let layouted := elkLayout (buildElkGraph opts g.1 g.2)
    let nodeShapes := compileAutoNodes g.1 0 (layouted.children.getD [])
    nodeShapes ++ compileAutoEdges g.2 layouted 0 nodeShapes.length (layouted.edges.getD [])

/-! ## Decompiler (src/lib/dsl/decompiler.ts, the 50-unit-threshold
version: the variant the spec's threshold clause describes; the other two
variants in the file use a containment margin of 30 respectively no
threshold at all) -/

/-- Decompiled node record: variant 3 keeps only the center geometry. -/
structure DecompiledNode where
  id : String
  shape : ShapeTypeAST
  label : Option String := none
  styleFill : Option String := none
  styleStroke : Option String := none
  centerX : JsNum
  centerY : JsNum
deriving DecidableEq, Repr

structure DecompiledEdge where
  fromId : String
  toId : String
  arrowType : ArrowTypeAST
  label : Option String := none
deriving DecidableEq, Repr

/-- Deterministic node ids in encounter order: a..z, then node27, node28, … -/
def generateNodeId (index : Nat) : String :=
  if index < 26 then String.mk [Char.ofNat (97 + index)]
  else "node" ++ toString (index + 1)

/-- Node-capable classification: rectangle to rect, ellipse to circle. -/
def shapeToNodeType : Shape → Option ShapeTypeAST
  | .rectangle _ _ _ _ => some .rect
  | .ellipse _ _ _ => some .circle
  | _ => none

/-- Center of a shape (`getShapeCenter`). -/
def getShapeCenter : Shape → JsPoint
  | .rectangle b w h _ => ⟨b.x.add w.half, b.y.add h.half⟩
  | .ellipse b w h => ⟨b.x.add w.half, b.y.add h.half⟩
  | s => ⟨s.base.x, s.base.y⟩

/-- First pass of `decompile`: identify node-capable shapes, assign ids in
encounter order, extract non-default fill/stroke. -/
def firstPass : Nat → List Shape → List DecompiledNode
  | _, [] => []
  | idx, s :: rest =>
    match shapeToNodeType s with
    | some nodeType =>
      let center := getShapeCenter s
      { id := generateNodeId idx
        shape := nodeType
        centerX := center.x
        centerY := center.y
        styleFill :=
          if s.base.fill ≠ "#ffffff" ∧ s.base.fill ≠ "transparent" then some s.base.fill else none
        styleStroke :=
          if s.base.stroke ≠ "#000000" then some s.base.stroke else none }
        :: firstPass (idx + 1) rest
    | none => firstPass idx rest

/-- Squared distance from an endpoint to a node's center. -/
def distSqToCenter (point : JsPoint) (n : DecompiledNode) : JsNum :=
  let dx := point.x.sub n.centerX
  let dy := point.y.sub n.centerY
  (dx.mul dx).add (dy.mul dy)

/-- Minimum scan of `findConnectedNode`. -/
def findGo (point : JsPoint) : List DecompiledNode → Option String → JsNum → Option String
  | [], closest, _ => closest
  | n :: rest, closest, minSq =>
    if JsNum.lt (distSqToCenter point n) minSq then
      findGo point rest (some n.id) (distSqToCenter point n)
    else
      findGo point rest closest minSq

/-- Endpoint matching of `findConnectedNode` with its default threshold 50.
The source compares Euclidean distances (Math.sqrt) against the running
minimum, initially the threshold; this embedding compares squared
distances against squared bounds, equivalent since sqrt is strictly
monotone on nonnegatives and NaN comparisons are false either way. -/
def findConnectedNode (point : JsPoint) (nodes : List DecompiledNode) : Option String :=
  findGo point nodes none (.num 2500)

/-- ArrowType inference from connector flags (`arrowTypeToAST`). -/
def arrowTypeToAST : Shape → ArrowTypeAST
  | .line _ _ _ _ => .line
  | .arrow _ _ sA eA _ _ => if sA && eA then .both else if sA then .left else .right
  | _ => .right

/-- Second pass of `decompile`, per shape: connectors with fewer than two
points are skipped; both raw endpoints must resolve to nodes and the two
nodes must differ, otherwise the connector yields nothing. -/
def edgeOfShape (nodes : List DecompiledNode) (s : Shape) : Option DecompiledEdge :=
  match connectorPoints s with
  | none => none
  | some points =>
    match points with
    | p0 :: _ :: _ =>
      let endPoint := points.getLastD p0
      match findConnectedNode p0 nodes, findConnectedNode endPoint nodes with
      | some f, some t =>
        if f ≠ t then some { fromId := f, toId := t, arrowType := arrowTypeToAST s } else none
      | _, _ => none
    | _ => none

def arrowTypeToSymbol : ArrowTypeAST → String
  | .left => "<-"
  | .both => "<->"
  | .dotted => "-->"
  | .thick => "==>"
  | .line => "--"
  | .right => "->"

/-- DSL keyword printed for a node's shape. -/
def shapeKeyword : ShapeTypeAST → String
  | .rect => "rect"
  | .circle => "circle"
  | .diamond => "diamond"
  | .cylinder => "cylinder"

/-- Style string for a node line (`formatStyleProps`): only non-default
fill/stroke are printed. -/
def formatStyleProps (fill stroke : Option String) : String :=
  let props :=
    (match fill with
     | some f => if f ≠ "" ∧ f ≠ "#ffffff" ∧ f ≠ "transparent" then ["fill: " ++ f] else []
     | none => []) ++
    (match stroke with
     | some st => if st ≠ "" ∧ st ≠ "#000000" then ["stroke: " ++ st] else []
     | none => [])
  String.intercalate ", " props

/-- One output line per node. -/
def nodeLine (n : DecompiledNode) : String :=
  let styleStr := formatStyleProps n.styleFill n.styleStroke
  let line :=
    if styleStr = "" then n.id ++ "(" ++ shapeKeyword n.shape ++ ")"
    else n.id ++ "(" ++ shapeKeyword n.shape ++ ", " ++ styleStr ++ ")"
  if strTruthy n.label then line ++ ": \"" ++ n.label.getD "" ++ "\"" else line

/-- One output line per resolved connector. -/
def edgeLine (e : DecompiledEdge) : String :=
  let line := e.fromId ++ " " ++ arrowTypeToSymbol e.arrowType ++ " " ++ e.toId
  if strTruthy e.label then line ++ ": \"" ++ e.label.getD "" ++ "\"" else line

/-- Assembled output lines: node block, blank separator when both blocks
are nonempty, edge block. -/
def renderLines (nodes : List DecompiledNode) (edges : List DecompiledEdge) : List String :=
  nodes.map nodeLine
    ++ (if ¬nodes.isEmpty ∧ ¬edges.isEmpty then [""] else [])
    ++ edges.map edgeLine

/-- Contract of `decompile(shapes)`: total, pure; classifies nodes, infers
edges, serializes. -/
def decompile (shapes : List Shape) : String :=
  let nodes := firstPass 0 shapes
  let edges := shapes.filterMap (edgeOfShape nodes)
  String.intercalate "\n" (renderLines nodes edges)

/-! ## Claim-side definitions

These follow the wording of spec sentences, to be compared against the
definitions embedded from the source. -/

/-- Claim-side matching rule (C8's words): squared distance from a point to
a bounding box, 0 when the point lies inside the box, else the square of
the Euclidean distance to the nearest box edge. -/
def specBoxDistSq (px py x y w h : Rat) : Rat :=
  let dx := max (x - px) (max 0 (px - (x + w)))
  let dy := max (y - py) (max 0 (py - (y + h)))
  dx * dx + dy * dy

/-- Bounding box of a node-capable shape with finite coordinates. -/
def nodeBox : Shape → Option (Rat × Rat × Rat × Rat)
  | .rectangle b w h _ =>
    match b.x, b.y, w, h with
    | .num x, .num y, .num wq, .num hq => some (x, y, wq, hq)
    | _, _, _, _ => none
  | .ellipse b w h =>
    match b.x, b.y, w, h with
    | .num x, .num y, .num wq, .num hq => some (x, y, wq, hq)
    | _, _, _, _ => none
  | _ => none

/-- Claim-side node record: id (assigned in encounter order, as the code
does) plus the bounding box. -/
structure SpecBox where
  id : String
  x : Rat
  y : Rat
  width : Rat
  height : Rat
deriving DecidableEq, Repr

def specNodeBoxesGo : Nat → List Shape → List SpecBox
  | _, [] => []
  | idx, s :: rest =>
    match shapeToNodeType s with
    | some _ =>
      match nodeBox s with
      | some (x, y, w, h) => ⟨generateNodeId idx, x, y, w, h⟩ :: specNodeBoxesGo (idx + 1) rest
      | none => specNodeBoxesGo (idx + 1) rest
    | none => specNodeBoxesGo idx rest

def specNodeBoxes (shapes : List Shape) : List SpecBox :=
  specNodeBoxesGo 0 shapes

def specFindByBoxGo (px py : Rat) : List SpecBox → Option String → Rat → Option String
  | [], best, _ => best
  | b :: rest, best, minSq =>
    let d := specBoxDistSq px py b.x b.y b.width b.height
    if d < minSq then specFindByBoxGo px py rest (some b.id) d
    else specFindByBoxGo px py rest best minSq

/-- Claim-side endpoint matching (C8's words): minimum bounding-box
distance subject to the 50-unit threshold (squared: 2500). -/
def specFindByBox (px py : Rat) (boxes : List SpecBox) : Option String :=
  specFindByBoxGo px py boxes none 2500

/-- Claim-side helper (C9's words): the closest in-threshold node other
than the excluded one, under the code's own center-distance metric. -/
def specSecondClosest (point : JsPoint) (nodes : List DecompiledNode) (excluded : String) :
    Option String :=
  findGo point (nodes.filter (fun n => n.id != excluded)) none (.num 2500)

/-! ## Concrete instances used by the theorems -/

/-- Layout collaborator stub: empty result object. -/
def elkConst : ElkGraphIn → ElkGraphOut := fun _ => {}

/-- Layout collaborator returning no positioned nodes and no routed edges:
a result the spec calls unusable. -/
def elkEmpty : ElkGraphIn → ElkGraphOut := fun _ => { children := some [], edges := some [] }

/-- Layout collaborator returning node records without any coordinates. -/
def elkNoCoords : ElkGraphIn → ElkGraphOut := fun _ =>
  { children := some [{ id := "b" }, { id := "a" }], edges := some [] }

def mkBase (i : String) (x y : Rat) : BaseProps :=
  { id := i, x := .num x, y := .num y, rotation := .num 0, stroke := "#000000",
    strokeWidth := .num 2, fill := "#ffffff", opacity := .num 1 }

def mkNodeRect (i : String) (x y w h : Rat) : Shape :=
  .rectangle (mkBase i x y) (.num w) (.num h) (.num 4)

def mkTestArrow (pts : List JsPoint) : Shape :=
  .arrow (mkBase "ar" 0 0) pts false true none none

/-- Two wide rectangles and an arrow whose start point lies inside the
first rectangle's box but more than 50 units from its center, and whose
end point is the second rectangle's center. -/
def c8Shapes : List Shape :=
  [mkNodeRect "r1" 0 0 200 100, mkNodeRect "r2" 300 0 200 100,
   mkTestArrow [⟨.num 5, .num 5⟩, ⟨.num 400, .num 50⟩]]

/-- A single small rectangle, and an arrow both of whose endpoints lie more
than 50 units from the rectangle's bounding box. -/
def c8FarRect : Shape := mkNodeRect "far" 0 0 10 10

def c8FarArrow : Shape := mkTestArrow [⟨.num 100, .num 0⟩, ⟨.num 100, .num 50⟩]

/-- Two small rectangles and an arrow both of whose endpoints are closest
to the first rectangle's center, while the second rectangle's center is
also within the 50-unit threshold of the end point. -/
def c9Shapes : List Shape :=
  [mkNodeRect "r1" 0 0 40 40, mkNodeRect "r2" 60 0 40 40,
   mkTestArrow [⟨.num 20, .num 20⟩, ⟨.num 45, .num 20⟩]]

/-- Document with two explicitly positioned nodes and an edge carrying
explicit x1,y1,x2,y2 anchor overrides. -/
def c2src : String := "a(rect, x: 0, y: 0) -> b(rect, x: 100, y: 0) (x1: 7, y1: 8, x2: 9, y2: 10)"

/-! ## Theorems -/

/-- C1: `parse` never throws and always returns a Document AST (it is
embedded as a total function); and whenever any lexical or syntax error
occurred the returned statement list is empty — a non-empty statements
list and a non-empty errors list never occur together in one parse
result. -/
theorem parse_statements_errors_exclusive (input : String) :
    (parse input).statements = [] ∨ (parse input).errors = [] := by
  unfold parse
  by_cases h : (tokenize input.toList).2.isEmpty
  · simp only [h, if_true]
    cases hp :
        parseDocument (4 * (tokenize input.toList).1.length + 16) (tokenize input.toList).1 with
    | error e => left; rfl
    | ok cst => right; rfl
  · simp only [h, if_false]
    left; rfl

unseal Rat.add Rat.sub Rat.mul Rat.inv Rat.ofScientific in
/-- C2 counterexample: in explicit-position mode the compiled connector's
endpoints are the two nodes' centers (60,30) and (160,30) even though the
edge carries explicit anchor overrides x1:7, y1:8, x2:9, y2:10 — the
anchors do not take precedence; `compile` never reads them. -/
theorem compile_ignores_edge_anchors_counterexample :
    (parse c2src).statements.getLast? = some (.edge
      { fromId := "a", toId := "b", arrowType := .right,
        x1 := some (.num 7), y1 := some (.num 8), x2 := some (.num 9), y2 := some (.num 10) })
    ∧ (compile (parse c2src) {} elkConst).map connectorPoints =
        [none, none, some [⟨.num 60, .num 30⟩, ⟨.num 160, .num 30⟩]]
    ∧ ([⟨.num 60, .num 30⟩, ⟨.num 160, .num 30⟩] : List JsPoint) ≠
        [⟨.num 7, .num 8⟩, ⟨.num 9, .num 10⟩] := by
  refine ⟨by rfl, by decide, by decide⟩

/-- C3: when the layout collaborator returns no positioned nodes, `compile`
returns successfully with an empty shape list instead of failing; when it
returns nodes without coordinates, `compile` silently places them at the
zero position with default dimensions.  The required failure path does not
exist in the code. -/
theorem compile_swallows_empty_layout_result :
    compile (parse "a -> b") {} elkEmpty = []
    ∧ compile (parse "a -> b") {} elkNoCoords =
        [.rectangle (mkBase "id-0" 0 0) (.num 120) (.num 60) (.num 4),
         .rectangle (mkBase "id-1" 0 0) (.num 120) (.num 60) (.num 4)] := by
  refine ⟨rfl, by decide⟩

/-- C4: `parse "a -> b"` returns exactly three statements: the Edge
`{from: a, to: b, arrowType: right}` preceded by the two synthesized Node
statements, in the order [node "b", node "a", edge] — each synthesized
node is unshifted to position 0, so the later-referenced `b` ends up
first. -/
theorem parse_edge_synthesizes_nodes_in_reverse_order :
    parse "a -> b" =
      { statements :=
          [.node { id := "b" }, .node { id := "a" },
           .edge { fromId := "a", toId := "b", arrowType := .right }],
        errors := [] } := rfl

/-- Updating an existing registry key stores the new value under that key. -/
theorem regGet_regSet_self (r : Registry) (id : String) (n : NodeAST)
    (h : (regGet r id).isSome) : regGet (regSet r id n) id = some n := by
  induction r with
  | nil => simp [regGet] at h
  | cons p rest ih =>
    by_cases hp : p.1 = id
    · simp [regSet, regGet, hp]
    · have hb : (p.1 == id) = false := by simpa using hp
      simp only [regSet, hb, if_false]
      simp only [regGet, List.find?, hb] at h ⊢
      exact ih h

/-- Updating a registry key leaves every other key unchanged. -/
theorem regGet_regSet_ne (r : Registry) (id id' : String) (n : NodeAST)
    (h : id' ≠ id) : regGet (regSet r id n) id' = regGet r id' := by
  induction r with
  | nil => simp [regSet]
  | cons p rest ih =>
    by_cases hp : p.1 = id
    · have hb : (p.1 == id) = true := by simpa using hp
      have hb' : (id == id') = false := by simpa using (fun hh => h hh.symm)
      have hb'' : (p.1 == id') = false := by
        subst hp; exact hb'
      simp [regSet, regGet, hb, hb', hb'', List.find?]
    · have hb : (p.1 == id) = false := by simpa using hp
      by_cases hq : p.1 = id'
      · have hbq : (p.1 == id') = true := by simpa using hq
        simp [regSet, regGet, hb, hbq, List.find?]
      · have hbq : (p.1 == id') = false := by simpa using hq
        simp only [regSet, hb, if_false]
        simp only [regGet, List.find?, hbq] at ih ⊢
        exact ih

/-- C5: re-encountering an already-registered node id merges into the
existing record rather than replacing it: the registry entry becomes the
merge (other entries untouched), the merged id is the old id, label and
shape are overwritten only when the new occurrence supplies them (a truthy
value), and style is merged key-by-key with the later occurrence winning
per key — in particular an existing style is never wholesale replaced: a
key unset in the new style survives from the old one. -/
theorem registry_merge_on_reencounter (r : Registry) (n old : NodeAST)
    (h : regGet r n.id = some old) :
    regGet (registerNode r n) n.id = some (mergeNode old n)
    ∧ (∀ id', id' ≠ n.id → regGet (registerNode r n) id' = regGet r id')
    ∧ (mergeNode old n).id = old.id
    ∧ (mergeNode old n).label = (if strTruthy n.label then n.label else old.label)
    ∧ (mergeNode old n).shape = (n.shape <|> old.shape)
    ∧ (n.style = none → (mergeNode old n).style = old.style)
    ∧ (∀ ns, n.style = some ns → old.style = none → (mergeNode old n).style = some ns)
    ∧ (∀ ns os, n.style = some ns → old.style = some os →
        (mergeNode old n).style = some
          { fill := ns.fill <|> os.fill
            stroke := ns.stroke <|> os.stroke
            strokeWidth := ns.strokeWidth <|> os.strokeWidth
            x := ns.x <|> os.x
            y := ns.y <|> os.y
            width := ns.width <|> os.width
            height := ns.height <|> os.height
            x1 := ns.x1 <|> os.x1
            y1 := ns.y1 <|> os.y1
            x2 := ns.x2 <|> os.x2
            y2 := ns.y2 <|> os.y2 }) := by
  refine ⟨?_, ?_, ?_, ?_, ?_, ?_, ?_, ?_⟩
  · simp only [registerNode, h]
    exact regGet_regSet_self r n.id _ (by simp [h])
  · intro id' hne
    simp only [registerNode, h]
    exact regGet_regSet_ne r n.id id' _ hne
  · rfl
  · rfl
  · cases hs : n.shape <;> simp [mergeNode, hs, Option.orElse]
  · intro hs; simp [mergeNode, hs]
  · intro ns hs ho; simp [mergeNode, hs, mergeStyle, ho]
  · intro ns os hs ho
    simp [mergeNode, hs, mergeStyle, ho]

/-- Re-encountered node record with label, shape and a partial style. -/
def c5OldNode : NodeAST :=
  { id := "a", label := some "L", shape := some .circle,
    style := some { x := some (.num 1), fill := some "red" } }

/-- New occurrence supplying a shape and a style that sets only `x`. -/
def c5NewNode : NodeAST :=
  { id := "a", shape := some .rect, style := some { x := some (.num 2) } }

/-- Witness for C5 at a concrete registry and node. -/
theorem registry_merge_on_reencounter_witness :
    regGet [("a", c5OldNode)] "a" = some c5OldNode
    ∧ regGet (registerNode [("a", c5OldNode)] c5NewNode) "a" =
        some (mergeNode c5OldNode c5NewNode) :=
  ⟨rfl, (registry_merge_on_reencounter [("a", c5OldNode)] c5NewNode c5OldNode rfl).1⟩

/-- C10: in explicit-position mode a node whose style explicitly sets
width (or height) to 0 is compiled with the shape-default dimension from
the SHAPE_DIMENSIONS table instead — the zero feeds through JS `||` and is
treated the same as an unset value — both for the emitted node shape's
size and for the centers used as edge-connector endpoints. -/
theorem explicit_zero_dimension_uses_default (n m : NodeAST) (opts : CompileOptions)
    (elk : ElkGraphIn → ElkGraphOut) (px py : JsNum)
    (hx : n.style.bind (·.x) = some px) (hy : n.style.bind (·.y) = some py)
    (hmx : (m.style.bind (·.x)).isSome = true) (hmy : (m.style.bind (·.y)).isSome = true)
    (hne : n.id ≠ m.id) :
    (n.style.bind (·.width) = some (.num 0) →
      explicitWidth n = .num (SHAPE_DIMENSIONS (n.shape.getD DEFAULT_SHAPE)).width
      ∧ compile ⟨[.node n], []⟩ opts elk =
          [createNodeShape n.id (generateId 0) px py
            (.num (SHAPE_DIMENSIONS (n.shape.getD DEFAULT_SHAPE)).width) (explicitHeight n) n]
      ∧ compile
          ⟨[.node n, .node m, .edge { fromId := n.id, toId := m.id, arrowType := .right }], []⟩
          opts elk =
          [createNodeShape n.id (generateId 0) px py
             (.num (SHAPE_DIMENSIONS (n.shape.getD DEFAULT_SHAPE)).width) (explicitHeight n) n,
           createNodeShape m.id (generateId 1) (styleX m) (styleY m)
             (explicitWidth m) (explicitHeight m) m,
           createArrowFromPoints (generateId 2)
             [⟨px.add ((JsNum.num (SHAPE_DIMENSIONS (n.shape.getD DEFAULT_SHAPE)).width).half),
               py.add ((explicitHeight n).half)⟩,
              explicitCenter m]
             { fromId := n.id, toId := m.id, arrowType := .right }])
    ∧ (n.style.bind (·.height) = some (.num 0) →
      explicitHeight n = .num (SHAPE_DIMENSIONS (n.shape.getD DEFAULT_SHAPE)).height
      ∧ compile ⟨[.node n], []⟩ opts elk =
          [createNodeShape n.id (generateId 0) px py (explicitWidth n)
            (.num (SHAPE_DIMENSIONS (n.shape.getD DEFAULT_SHAPE)).height) n]) := by
  have hbne : (n.id == m.id) = false := by simpa using hne
  have hsx : styleX n = px := by simp [styleX, hx]
  have hsy : styleY n = py := by simp [styleY, hy]
  constructor
  · intro hw
    have hwid : explicitWidth n = .num (SHAPE_DIMENSIONS (n.shape.getD DEFAULT_SHAPE)).width := by
      simp [explicitWidth, hw, jsOr, JsNum.truthy]
    refine ⟨hwid, ?_, ?_⟩
    · simp [compile, extractGraph, extractStep, mapSet, regGet, List.find?, allHavePositions,
            compileExplicitNodes, compileExplicitEdges, hx, hy, hwid, hsx, hsy]
    · simp [compile, extractGraph, extractStep, mapSet, regGet, List.find?, allHavePositions,
            compileExplicitNodes, compileExplicitEdges, explicitCenter,
            hx, hy, hmx, hmy, hbne, hwid, hsx, hsy]
  · intro hh
    have hhei : explicitHeight n = .num (SHAPE_DIMENSIONS (n.shape.getD DEFAULT_SHAPE)).height := by
      simp [explicitHeight, hh, jsOr, JsNum.truthy]
    refine ⟨hhei, ?_⟩
    simp [compile, extractGraph, extractStep, mapSet, regGet, List.find?, allHavePositions,
          compileExplicitNodes, compileExplicitEdges, hx, hy, hhei, hsx, hsy]

/-- Node with explicit position and an explicit zero width. -/
def c10Node : NodeAST :=
  { id := "n1", style := some { x := some (.num 3), y := some (.num 4), width := some (.num 0) } }

/-- A second positioned node for the edge-center part. -/
def c10Other : NodeAST :=
  { id := "m1", style := some { x := some (.num 50), y := some (.num 60) } }

/-- Witness for C10 at a concrete zero-width node: the rect default 120 is
used. -/
theorem explicit_zero_dimension_uses_default_witness :
    explicitWidth c10Node = .num 120 :=
  ((explicit_zero_dimension_uses_default c10Node c10Other {} elkConst (.num 3) (.num 4)
    rfl rfl rfl rfl (by decide)).1 rfl).1

/-- C7 counterexample: the keyword `rect` immediately followed by the
identifier-constituent characters `angle` does not lex as a single
Identifier spanning the full run; the lexer produces the single
ShapeRectangle keyword token instead, because the full run spells the
longer shape keyword. -/
theorem keyword_prefix_counterexample :
    ("angle".toList ≠ [] ∧ ∀ c ∈ "angle".toList, isIdentChar c = true)
    ∧ "rect".toList ++ "angle".toList = "rectangle".toList
    ∧ (tokenize ("rect".toList ++ "angle".toList)).1 = [⟨.shapeRectangle, "rectangle".toList⟩]
    ∧ (tokenize ("rect".toList ++ "angle".toList)).1 ≠
        [⟨.identifier, "rect".toList ++ "angle".toList⟩] := by
  refine ⟨by decide, by decide, by decide, by decide⟩

/-- Running takeWhile over a list all of whose elements satisfy the
predicate returns the whole list. -/
theorem takeWhile_of_all {p : Char → Bool} :
    ∀ (l : List Char), (∀ x ∈ l, p x = true) → l.takeWhile p = l := by
  intro l h
  induction l with
  | nil => rfl
  | cons c rest ih =>
    simp only [List.takeWhile_cons, h c (List.mem_cons_self c rest), if_true]
    rw [ih (fun x hx => h x (List.mem_cons_of_mem c hx))]

theorem all_idChar_append (l1 l2 : List Char) (h1 : ∀ x ∈ l1, isIdentChar x = true)
    (h2 : ∀ x ∈ l2, isIdentChar x = true) : ∀ x ∈ l1 ++ l2, isIdentChar x = true := by
  intro x hx
  rcases List.mem_append.mp hx with h | h
  · exact h1 x h
  · exact h2 x h

/-- An all-identifier-character input is matched whole by the identifier
pattern. -/
theorem matchIdentifier_all (c : Char) (rest : List Char) (hc : isIdentStart c = true)
    (hall : ∀ x ∈ rest, isIdentChar x = true) :
    matchIdentifier (c :: rest) = some (c :: rest) := by
  simp [matchIdentifier, hc, takeWhile_of_all rest hall]

theorem length_lt_append (l s : List Char) (hs : s ≠ []) : l.length < (l ++ s).length := by
  simp only [List.length_append]
  have := List.length_pos.mpr hs
  omega

/-- When the scan winner has the longer-alt flag and an identifier match
covers the whole (strictly longer) input, the lexer emits exactly one
Identifier token spanning the input. -/
theorem tokenize_single_identifier (c : Char) (rest : List Char) (d : TokenDef)
    (img : List Char)
    (hf : findFirstMatch allTokens (c :: rest) = some (d, img))
    (hskip : d.skipped = false) (halt : d.longerAltIdent = true)
    (hident : matchIdentifier (c :: rest) = some (c :: rest))
    (hlen : img.length < (c :: rest).length) :
    tokenize (c :: rest) = ([⟨.identifier, c :: rest⟩], []) := by
  have hres : resolveLongerAlt d img (c :: rest) = (TokenKind.identifier, c :: rest) := by
    simp only [resolveLongerAlt, halt, if_true, hident]
    rw [if_pos hlen]
  show tokenizeAux (c :: rest).length (c :: rest) = _
  rw [List.length_cons]
  simp only [tokenizeAux, hf, hskip, Bool.false_eq_true, if_false, hres]
  simp [List.drop_length, tokenizeAux]

theorem keyword_run_identifier (c : Char) (l s : List Char) (d : TokenDef) (img : List Char)
    (hf : findFirstMatch allTokens ((c :: l) ++ s) = some (d, img))
    (hskip : d.skipped = false) (halt : d.longerAltIdent = true)
    (hc : isIdentStart c = true) (hl : ∀ x ∈ l, isIdentChar x = true)
    (hs : ∀ x ∈ s, isIdentChar x = true)
    (hlen : img.length < ((c :: l) ++ s).length) :
    tokenize ((c :: l) ++ s) = ([⟨.identifier, (c :: l) ++ s⟩], []) :=
  tokenize_single_identifier c (l ++ s) d img hf hskip halt
    (matchIdentifier_all c (l ++ s) hc (all_idChar_append l s hl hs)) hlen

/-- The alphabetic keyword spellings of the DSL (every keyword except the
at-sign-prefixed layout and style markers). -/
def alphaKeywordLits : List (List Char) :=
  [['g','r','o','u','p'], ['a','r','r','o','w'],
   ['r','e','c','t','a','n','g','l','e'], ['r','e','c','t'], ['b','o','x'],
   ['e','l','l','i','p','s','e'], ['c','i','r','c','l','e'], ['o','v','a','l'],
   ['d','i','a','m','o','n','d'], ['d','a','t','a','b','a','s','e'],
   ['c','y','l','i','n','d','e','r'], ['d','b']]

/-- Per-keyword case analysis of the longer-run rule. -/
theorem c7_universal (kw : List Char) (hkw : kw ∈ alphaKeywordLits) (s : List Char)
    (hs0 : s ≠ []) (hs : ∀ x ∈ s, isIdentChar x = true)
    (hnk : (kw ++ s) ∉ alphaKeywordLits) :
    tokenize (kw ++ s) = ([⟨.identifier, kw ++ s⟩], []) := by
  simp only [alphaKeywordLits, List.mem_cons, List.not_mem_nil, or_false] at hkw
  rcases hkw with h|h|h|h|h|h|h|h|h|h|h|h <;> subst h
  -- group
  · have hf : findFirstMatch allTokens (('g' :: ['r','o','u','p']) ++ s) =
        some (⟨.groupKw, matchLit ['g','r','o','u','p'], false, true⟩, ['g','r','o','u','p']) := by
      simp [allTokens, findFirstMatch, matchWhiteSpace, matchComment, matchStringLiteral,
          matchColorLiteral, matchNumberLiteral, matchLit, List.isPrefixOf, isWsChar,
          List.takeWhile_cons]
    exact keyword_run_identifier 'g' ['r','o','u','p'] s _ _ hf rfl rfl (by decide) (by decide)
      hs (length_lt_append _ s hs0)
  -- arrow
  · have hf : findFirstMatch allTokens (('a' :: ['r','r','o','w']) ++ s) =
        some (⟨.arrowKw, matchLit ['a','r','r','o','w'], false, true⟩, ['a','r','r','o','w']) := by
      simp [allTokens, findFirstMatch, matchWhiteSpace, matchComment, matchStringLiteral,
          matchColorLiteral, matchNumberLiteral, matchLit, List.isPrefixOf, isWsChar,
          List.takeWhile_cons]
    exact keyword_run_identifier 'a' ['r','r','o','w'] s _ _ hf rfl rfl (by decide) (by decide)
      hs (length_lt_append _ s hs0)
  -- rectangle
  · have hf : findFirstMatch allTokens (('r' :: ['e','c','t','a','n','g','l','e']) ++ s) =
        some (⟨.shapeRectangle, matchLit ['r','e','c','t','a','n','g','l','e'], false, true⟩, ['r','e','c','t','a','n','g','l','e']) := by
      simp [allTokens, findFirstMatch, matchWhiteSpace, matchComment, matchStringLiteral,
          matchColorLiteral, matchNumberLiteral, matchLit, List.isPrefixOf, isWsChar,
          List.takeWhile_cons]
    exact keyword_run_identifier 'r' ['e','c','t','a','n','g','l','e'] s _ _ hf rfl rfl (by decide) (by decide)
      hs (length_lt_append _ s hs0)
  -- rect: the run may continue into the longer keyword spelling
  · by_cases hpre : ['a','n','g','l','e'].isPrefixOf s
    · have hpfx : ['a','n','g','l','e'] <+: s := List.isPrefixOf_iff_prefix.mp hpre
      obtain ⟨t, rfl⟩ := hpfx
      cases t with
      | nil => simp [alphaKeywordLits] at hnk
      | cons tc tt =>
        have hgoal : ['r','e','c','t'] ++ (['a','n','g','l','e'] ++ (tc :: tt)) =
            ('r' :: ['e','c','t','a','n','g','l','e']) ++ (tc :: tt) := rfl
        rw [hgoal]
        have hf : findFirstMatch allTokens
            (('r' :: ['e','c','t','a','n','g','l','e']) ++ (tc :: tt)) =
            some (⟨.shapeRectangle, matchLit ['r','e','c','t','a','n','g','l','e'], false, true⟩,
              ['r','e','c','t','a','n','g','l','e']) := by
          simp [allTokens, findFirstMatch, matchWhiteSpace, matchComment, matchStringLiteral,
          matchColorLiteral, matchNumberLiteral, matchLit, List.isPrefixOf, isWsChar,
          List.takeWhile_cons]
        exact keyword_run_identifier 'r' ['e','c','t','a','n','g','l','e'] (tc :: tt) _ _ hf
          rfl rfl (by decide) (by decide)
          (fun x hx => hs x (by simp [hx]))
          (length_lt_append _ _ (by simp))
    · have hf : findFirstMatch allTokens (('r' :: ['e','c','t']) ++ s) =
          some (⟨.shapeRect, matchLit ['r','e','c','t'], false, true⟩, ['r','e','c','t']) := by
        simp [allTokens, findFirstMatch, matchWhiteSpace, matchComment, matchStringLiteral,
              matchColorLiteral, matchNumberLiteral, matchLit, List.isPrefixOf, isWsChar,
              List.takeWhile_cons, hpre]
      exact keyword_run_identifier 'r' ['e','c','t'] s _ _ hf rfl rfl (by decide) (by decide)
        hs (length_lt_append _ s hs0)
  -- box
  · have hf : findFirstMatch allTokens (('b' :: ['o','x']) ++ s) =
        some (⟨.shapeBox, matchLit ['b','o','x'], false, true⟩, ['b','o','x']) := by
      simp [allTokens, findFirstMatch, matchWhiteSpace, matchComment, matchStringLiteral,
          matchColorLiteral, matchNumberLiteral, matchLit, List.isPrefixOf, isWsChar,
          List.takeWhile_cons]
    exact keyword_run_identifier 'b' ['o','x'] s _ _ hf rfl rfl (by decide) (by decide)
      hs (length_lt_append _ s hs0)
  -- ellipse
  · have hf : findFirstMatch allTokens (('e' :: ['l','l','i','p','s','e']) ++ s) =
        some (⟨.shapeEllipse, matchLit ['e','l','l','i','p','s','e'], false, true⟩, ['e','l','l','i','p','s','e']) := by
      simp [allTokens, findFirstMatch, matchWhiteSpace, matchComment, matchStringLiteral,
          matchColorLiteral, matchNumberLiteral, matchLit, List.isPrefixOf, isWsChar,
          List.takeWhile_cons]
    exact keyword_run_identifier 'e' ['l','l','i','p','s','e'] s _ _ hf rfl rfl (by decide) (by decide)
      hs (length_lt_append _ s hs0)
  -- circle
  · have hf : findFirstMatch allTokens (('c' :: ['i','r','c','l','e']) ++ s) =
        some (⟨.shapeCircle, matchLit ['c','i','r','c','l','e'], false, true⟩, ['c','i','r','c','l','e']) := by
      simp [allTokens, findFirstMatch, matchWhiteSpace, matchComment, matchStringLiteral,
          matchColorLiteral, matchNumberLiteral, matchLit, List.isPrefixOf, isWsChar,
          List.takeWhile_cons]
    exact keyword_run_identifier 'c' ['i','r','c','l','e'] s _ _ hf rfl rfl (by decide) (by decide)
      hs (length_lt_append _ s hs0)
  -- oval
  · have hf : findFirstMatch allTokens (('o' :: ['v','a','l']) ++ s) =
        some (⟨.shapeOval, matchLit ['o','v','a','l'], false, true⟩, ['o','v','a','l']) := by
      simp [allTokens, findFirstMatch, matchWhiteSpace, matchComment, matchStringLiteral,
          matchColorLiteral, matchNumberLiteral, matchLit, List.isPrefixOf, isWsChar,
          List.takeWhile_cons]
    exact keyword_run_identifier 'o' ['v','a','l'] s _ _ hf rfl rfl (by decide) (by decide)
      hs (length_lt_append _ s hs0)
  -- diamond
  · have hf : findFirstMatch allTokens (('d' :: ['i','a','m','o','n','d']) ++ s) =
        some (⟨.shapeDiamond, matchLit ['d','i','a','m','o','n','d'], false, true⟩, ['d','i','a','m','o','n','d']) := by
      simp [allTokens, findFirstMatch, matchWhiteSpace, matchComment, matchStringLiteral,
          matchColorLiteral, matchNumberLiteral, matchLit, List.isPrefixOf, isWsChar,
          List.takeWhile_cons]
    exact keyword_run_identifier 'd' ['i','a','m','o','n','d'] s _ _ hf rfl rfl (by decide) (by decide)
      hs (length_lt_append _ s hs0)
  -- database
  · have hf : findFirstMatch allTokens (('d' :: ['a','t','a','b','a','s','e']) ++ s) =
        some (⟨.shapeDatabase, matchLit ['d','a','t','a','b','a','s','e'], false, true⟩, ['d','a','t','a','b','a','s','e']) := by
      simp [allTokens, findFirstMatch, matchWhiteSpace, matchComment, matchStringLiteral,
          matchColorLiteral, matchNumberLiteral, matchLit, List.isPrefixOf, isWsChar,
          List.takeWhile_cons]
    exact keyword_run_identifier 'd' ['a','t','a','b','a','s','e'] s _ _ hf rfl rfl (by decide) (by decide)
      hs (length_lt_append _ s hs0)
  -- cylinder
  · have hf : findFirstMatch allTokens (('c' :: ['y','l','i','n','d','e','r']) ++ s) =
        some (⟨.shapeCylinder, matchLit ['c','y','l','i','n','d','e','r'], false, true⟩, ['c','y','l','i','n','d','e','r']) := by
      simp [allTokens, findFirstMatch, matchWhiteSpace, matchComment, matchStringLiteral,
          matchColorLiteral, matchNumberLiteral, matchLit, List.isPrefixOf, isWsChar,
          List.takeWhile_cons]
    exact keyword_run_identifier 'c' ['y','l','i','n','d','e','r'] s _ _ hf rfl rfl (by decide) (by decide)
      hs (length_lt_append _ s hs0)
  -- db
  · have hf : findFirstMatch allTokens (('d' :: ['b']) ++ s) =
        some (⟨.shapeDb, matchLit ['d','b'], false, true⟩, ['d','b']) := by
      simp [allTokens, findFirstMatch, matchWhiteSpace, matchComment, matchStringLiteral,
          matchColorLiteral, matchNumberLiteral, matchLit, List.isPrefixOf, isWsChar,
          List.takeWhile_cons]
    exact keyword_run_identifier 'd' ['b'] s _ _ hf rfl rfl (by decide) (by decide)
      hs (length_lt_append _ s hs0)

/-- C7 as amended: for every alphabetic keyword, a keyword immediately
followed by further identifier-constituent characters lexes as a single
Identifier token spanning the full run, provided the run does not itself
spell a longer keyword (then that keyword token is produced, see the
counterexample); in particular `rectangle1(rect)` lexes with a single
Identifier `rectangle1` and `parse "rectangle1(rect): \"x\""` succeeds,
classifying rectangle1 as a node id of shape rect.  `@layout` is excluded:
`@layoutx` lexes as the Layout token followed by a separate Identifier. -/
theorem keyword_longer_run_lexes_identifier :
    (∀ kw ∈ alphaKeywordLits, ∀ s : List Char, s ≠ [] →
      (∀ x ∈ s, isIdentChar x = true) → (kw ++ s) ∉ alphaKeywordLits →
      tokenize (kw ++ s) = ([⟨.identifier, kw ++ s⟩], []))
    ∧ (tokenize "rectangle1(rect)".toList).1 =
        [⟨.identifier, "rectangle1".toList⟩, ⟨.lParen, ['(']⟩,
         ⟨.shapeRect, "rect".toList⟩, ⟨.rParen, [')']⟩]
    ∧ parse "rectangle1(rect): \"x\"" =
        { statements := [.node { id := "rectangle1", label := some "x", shape := some .rect }],
          errors := [] }
    ∧ (tokenize "@layoutx".toList).1 =
        [⟨.layoutKw, "@layout".toList⟩, ⟨.identifier, ['x']⟩] := by
  refine ⟨fun kw hkw s hs0 hs hnk => c7_universal kw hkw s hs0 hs hnk, by decide, by rfl, by decide⟩

/-- Witness for C7's universal part: the keyword `rect` followed by `1`. -/
theorem keyword_longer_run_lexes_identifier_witness :
    tokenize (['r','e','c','t'] ++ ['1']) = ([⟨.identifier, ['r','e','c','t','1']⟩], []) :=
  keyword_longer_run_lexes_identifier.1 ['r','e','c','t'] (by decide) ['1'] (by decide)
    (by decide) (by decide)

/-- A successful scan returns a member of the token list whose matcher
succeeded. -/
theorem findFirstMatch_mem : ∀ (l : List TokenDef) (cs : List Char) (d : TokenDef)
    (img : List Char), findFirstMatch l cs = some (d, img) → d ∈ l ∧ d.matchFn cs = some img := by
  intro l
  induction l with
  | nil => intro cs d img h; simp [findFirstMatch] at h
  | cons hd tl ih =>
    intro cs d img h
    simp only [findFirstMatch] at h
    cases hm : hd.matchFn cs with
    | some img' =>
      rw [hm] at h
      simp only [Option.some.injEq, Prod.mk.injEq] at h
      obtain ⟨h1, h2⟩ := h
      subst h1; subst h2
      exact ⟨List.mem_cons_self _ _, hm⟩
    | none =>
      rw [hm] at h
      obtain ⟨hmem, hfn⟩ := ih cs d img h
      exact ⟨List.mem_cons_of_mem _ hmem, hfn⟩

/-- A color-literal match forces a leading `#`. -/
theorem matchColorLiteral_head (cs img : List Char) (h : matchColorLiteral cs = some img) :
    ∃ rest, cs = '#' :: rest := by
  cases cs with
  | nil => simp [matchColorLiteral] at h
  | cons c rest =>
    by_cases hc : c = '#'
    · exact ⟨rest, by rw [hc]⟩
    · simp [matchColorLiteral, hc] at h

/-- The only token definition with the ColorLiteral kind carries the
color-literal matcher. -/
theorem color_def_matchFn (d : TokenDef) (hmem : d ∈ allTokens)
    (hk : d.kind = .colorLiteral) : d.matchFn = matchColorLiteral := by
  simp only [allTokens, List.mem_cons, List.not_mem_nil, or_false] at hmem
  rcases hmem with h|h|h|h|h|h|h|h|h|h|h|h|h|h|h|h|h|h|h|h|h|h|h|h|h|h|h|h|h|h|h|h|h <;>
    subst h <;> first | rfl | simp at hk

/-- The longer-alt resolution either keeps the winner's kind or switches
to Identifier. -/
theorem resolveLongerAlt_kind (d : TokenDef) (img cs : List Char) :
    (resolveLongerAlt d img cs).1 = d.kind ∨ (resolveLongerAlt d img cs).1 = .identifier := by
  unfold resolveLongerAlt
  by_cases ha : d.longerAltIdent
  · simp only [ha, if_true]
    cases matchIdentifier cs with
    | none => left; rfl
    | some img2 =>
      by_cases hl : img.length < img2.length
      · simp [hl]
      · simp [hl]
  · simp [ha]

/-- A non-skipped scan winner is never the ColorLiteral definition: its
matcher would force a `#` head, on which the Comment definition (earlier
in the list, and skipped) wins first. -/
theorem scan_no_color (cs : List Char) (d : TokenDef) (img : List Char)
    (hm : findFirstMatch allTokens cs = some (d, img)) (hsk : d.skipped = false) :
    d.kind ≠ .colorLiteral := by
  intro hdk
  obtain ⟨hmem, hfn⟩ := findFirstMatch_mem allTokens cs d img hm
  have hcolor := color_def_matchFn d hmem hdk
  rw [hcolor] at hfn
  obtain ⟨r2, hr2⟩ := matchColorLiteral_head _ _ hfn
  rw [hr2] at hm
  have hcm : findFirstMatch allTokens ('#' :: r2) =
      some (⟨.comment, matchComment, true, false⟩,
        '#' :: r2.takeWhile (fun x => x ≠ '\n')) := rfl
  rw [hcm] at hm
  simp only [Option.some.injEq, Prod.mk.injEq] at hm
  rw [← hm.1] at hsk
  simp at hsk

/-- No token the lexer driver emits has the ColorLiteral kind. -/
theorem tokenizeAux_no_color : ∀ (fuel : Nat) (cs : List Char) (t : Token),
    t ∈ (tokenizeAux fuel cs).1 → t.kind ≠ .colorLiteral := by
  intro fuel
  induction fuel with
  | zero =>
    intro cs t ht
    cases cs <;> simp [tokenizeAux] at ht
  | succ fuel ih =>
    intro cs t ht
    cases cs with
    | nil => simp [tokenizeAux] at ht
    | cons c rest =>
      simp only [tokenizeAux] at ht
      cases hm : findFirstMatch allTokens (c :: rest) with
      | none =>
        rw [hm] at ht
        simp only at ht
        exact ih _ t ht
      | some pr =>
        obtain ⟨d, img⟩ := pr
        rw [hm] at ht
        cases hsk : d.skipped with
        | true =>
          simp only [hsk, if_true] at ht
          exact ih _ t ht
        | false =>
          simp only [hsk, Bool.false_eq_true, if_false, List.mem_cons] at ht
          rcases ht with hhead | htail
          · subst hhead
            intro hk
            simp only at hk
            rcases resolveLongerAlt_kind d img (c :: rest) with hr | hr
            · rw [hk] at hr
              exact scan_no_color _ d img hm hsk hr.symm
            · rw [hk] at hr
              simp at hr
          · exact ih _ t htail

/-- C6: tokenization can never produce a ColorLiteral token for any input
whatsoever — the Comment token type precedes ColorLiteral in `allTokens`
and the lexer keeps the first match, so every `#` run is skipped as a
comment.  Consequently, on the claim's example `a(rect, fill: #f00)` the
tokens end at the colon, parse reports a syntax error and returns no
statements, instead of recording the fill color. -/
theorem color_literal_unreachable :
    (∀ (cs : List Char) (t : Token), t ∈ (tokenize cs).1 → t.kind ≠ .colorLiteral)
    ∧ (tokenize "a(rect, fill: #f00)".toList).1.map Token.kind =
        [.identifier, .lParen, .shapeRect, .comma, .identifier, .colon]
    ∧ (parse "a(rect, fill: #f00)").statements = []
    ∧ (parse "a(rect, fill: #f00)").errors ≠ [] := by
  refine ⟨fun cs t ht => tokenizeAux_no_color cs.length cs t ht, rfl, rfl, by decide⟩

/-- Witness for C6's universal part at a concrete input and token. -/
theorem color_literal_unreachable_witness :
    (⟨TokenKind.identifier, ['a']⟩ : Token) ∈ (tokenize "a".toList).1
    ∧ (⟨TokenKind.identifier, ['a']⟩ : Token).kind ≠ .colorLiteral :=
  ⟨by decide, color_literal_unreachable.1 "a".toList ⟨TokenKind.identifier, ['a']⟩ (by decide)⟩

unseal Rat.add Rat.sub Rat.mul Rat.inv Rat.ofScientific in
/-- C8 counterexample: under the claim's bounding-box matching rule both
endpoints of the arrow resolve (start inside box `a`, end at center of
`b`, distinct), so the claim predicts an edge line; but the code matches
by distance to the nodes' centers, the start point is more than 50 units
from both centers, and the decompiled output contains no edge line. -/
theorem decompile_matches_by_center_counterexample :
    specFindByBox 5 5 (specNodeBoxes c8Shapes) = some "a"
    ∧ specFindByBox 400 50 (specNodeBoxes c8Shapes) = some "b"
    ∧ ("a" : String) ≠ "b"
    ∧ decompile c8Shapes = "a(rect)\nb(rect)" := by
  refine ⟨by decide, by decide, by decide, by decide⟩

unseal Rat.add Rat.sub Rat.mul Rat.inv Rat.ofScientific in
/-- C9 counterexample: both endpoints of the arrow resolve to node `a`,
and a distinct in-threshold second-closest candidate `b` exists for the
end point, so the claimed substitution would produce the edge a -> b; but
the code drops the connector immediately and the output has no edge
line. -/
theorem decompile_same_node_drop_counterexample :
    findConnectedNode ⟨.num 20, .num 20⟩ (firstPass 0 c9Shapes) = some "a"
    ∧ findConnectedNode ⟨.num 45, .num 20⟩ (firstPass 0 c9Shapes) = some "a"
    ∧ specSecondClosest ⟨.num 45, .num 20⟩ (firstPass 0 c9Shapes) "a" = some "b"
    ∧ decompile c9Shapes = "a(rect)\nb(rect)" := by
  refine ⟨by decide, by decide, by decide, by decide⟩

/-- C9 as amended: whenever a connector's two endpoints resolve to the
same node, the connector is dropped immediately — no edge is emitted and
no error is reported — with no attempt to substitute a second-closest
candidate; and every edge the second pass does emit connects two distinct
nodes. -/
theorem decompile_same_node_dropped_immediately :
    (∀ (nodes : List DecompiledNode) (s : Shape) (p0 p1 : JsPoint) (rest : List JsPoint)
       (id : String),
      connectorPoints s = some (p0 :: p1 :: rest) →
      findConnectedNode p0 nodes = some id →
      findConnectedNode ((p0 :: p1 :: rest).getLastD p0) nodes = some id →
      edgeOfShape nodes s = none)
    ∧ (∀ (nodes : List DecompiledNode) (s : Shape) (e : DecompiledEdge),
      edgeOfShape nodes s = some e → e.fromId ≠ e.toId) := by
  constructor
  · intro nodes s p0 p1 rest id hcp hf ht
    have ht' : findConnectedNode ((p1 :: rest).getLast?.getD p0) nodes = some id := by
      simpa using ht
    simp [edgeOfShape, hcp, hf, ht']
  · intro nodes s e he
    unfold edgeOfShape at he
    cases hcp : connectorPoints s with
    | none => rw [hcp] at he; simp at he
    | some points =>
      rw [hcp] at he
      cases points with
      | nil => simp at he
      | cons p0 ptail =>
        cases ptail with
        | nil => simp at he
        | cons p1 rest =>
          simp only at he
          cases hf : findConnectedNode p0 nodes with
          | none => rw [hf] at he; simp at he
          | some f =>
            cases ht : findConnectedNode ((p0 :: p1 :: rest).getLastD p0) nodes with
            | none => rw [hf, ht] at he; simp at he
            | some t =>
              rw [hf, ht] at he
              simp only at he
              by_cases hne : f = t
              · rw [hne] at he; simp at he
              · rw [if_pos hne] at he
                simp only [Option.some.injEq] at he
                rw [← he]
                exact hne

unseal Rat.add Rat.sub Rat.mul Rat.inv Rat.ofScientific in
/-- Witness for C9's amended claim at the concrete two-rectangle scene:
both endpoints resolve to `a`, so the connector yields no edge. -/
theorem decompile_same_node_dropped_immediately_witness :
    edgeOfShape (firstPass 0 c9Shapes)
      (mkTestArrow [⟨.num 20, .num 20⟩, ⟨.num 45, .num 20⟩]) = none :=
  decompile_same_node_dropped_immediately.1 (firstPass 0 c9Shapes)
    (mkTestArrow [⟨.num 20, .num 20⟩, ⟨.num 45, .num 20⟩])
    ⟨.num 20, .num 20⟩ ⟨.num 45, .num 20⟩ [] "a" rfl (by decide) (by decide)

/-! ### C8: endpoint matching in the decompiler -/

theorem jsLt_irrefl (a : JsNum) : JsNum.lt a a = false := by
  cases a <;> simp [JsNum.lt]

theorem jsLt_asymm (a b : JsNum) (h : JsNum.lt a b = true) : JsNum.lt b a = false := by
  cases a <;> cases b <;> simp_all [JsNum.lt]
  exact le_of_lt h

theorem jsLt_trans (a b c : JsNum) (hab : JsNum.lt a b = true) (hbc : JsNum.lt b c = true) :
    JsNum.lt a c = true := by
  cases a <;> cases b <;> cases c <;> simp_all [JsNum.lt]
  exact lt_trans hab hbc

/-- Full characterization of the minimum scan: either no node beats the
running minimum and the accumulator is returned, or some node within the
minimum is returned and no node strictly beats it. -/
theorem findGo_result (point : JsPoint) :
    ∀ (nodes : List DecompiledNode) (closest : Option String) (minSq : JsNum),
      (findGo point nodes closest minSq = closest
        ∧ ∀ m ∈ nodes, JsNum.lt (distSqToCenter point m) minSq = false)
      ∨ (∃ n ∈ nodes, findGo point nodes closest minSq = some n.id
          ∧ JsNum.lt (distSqToCenter point n) minSq = true
          ∧ ∀ m ∈ nodes, JsNum.lt (distSqToCenter point m) (distSqToCenter point n) = false) := by
  intro nodes
  induction nodes with
  | nil => intro closest minSq; exact Or.inl ⟨rfl, by simp⟩
  | cons n rest ih =>
    intro closest minSq
    by_cases hlt : JsNum.lt (distSqToCenter point n) minSq = true
    · rw [show findGo point (n :: rest) closest minSq
          = findGo point rest (some n.id) (distSqToCenter point n) by
        simp [findGo, hlt]]
      rcases ih (some n.id) (distSqToCenter point n) with ⟨heq, hall⟩ | ⟨m, hm, heq, hlt2, hmin⟩
      · refine Or.inr ⟨n, List.mem_cons_self n rest, heq, hlt, ?_⟩
        intro m hm
        rcases List.mem_cons.mp hm with rfl | hm'
        · exact jsLt_irrefl _
        · exact hall m hm'
      · refine Or.inr ⟨m, List.mem_cons_of_mem n hm, heq, jsLt_trans _ _ _ hlt2 hlt, ?_⟩
        intro k hk
        rcases List.mem_cons.mp hk with rfl | hk'
        · exact jsLt_asymm _ _ hlt2
        · exact hmin k hk'
    · have hlt' : JsNum.lt (distSqToCenter point n) minSq = false :=
        Bool.eq_false_iff.mpr hlt
      rw [show findGo point (n :: rest) closest minSq = findGo point rest closest minSq by
        simp [findGo, hlt']]
      rcases ih closest minSq with ⟨heq, hall⟩ | ⟨m, hm, heq, hlt2, hmin⟩
      · refine Or.inl ⟨heq, ?_⟩
        intro m hm
        rcases List.mem_cons.mp hm with rfl | hm'
        · exact hlt'
        · exact hall m hm'
      · refine Or.inr ⟨m, List.mem_cons_of_mem n hm, heq, hlt2, ?_⟩
        intro k hk
        rcases List.mem_cons.mp hk with rfl | hk'
        · cases hlk : JsNum.lt (distSqToCenter point k) (distSqToCenter point m)
          · rfl
          · exact absurd (jsLt_trans _ _ _ hlk hlt2) (Bool.eq_false_iff.mp hlt')
        · exact hmin k hk'

/-- When no node beats the running minimum, the scan returns its
accumulator unchanged. -/
theorem findGo_const (point : JsPoint) :
    ∀ (nodes : List DecompiledNode) (closest : Option String) (minSq : JsNum),
      (∀ m ∈ nodes, JsNum.lt (distSqToCenter point m) minSq = false) →
      findGo point nodes closest minSq = closest := by
  intro nodes
  induction nodes with
  | nil => intro closest minSq _; rfl
  | cons n rest ih =>
    intro closest minSq hall
    have h0 := hall n (List.mem_cons_self n rest)
    rw [show findGo point (n :: rest) closest minSq = findGo point rest closest minSq by
      simp [findGo, h0]]
    exact ih closest minSq (fun m hm => hall m (List.mem_cons_of_mem n hm))

/-- Every node produced by the first pass comes from a node-capable shape
and carries that shape's center. -/
theorem firstPass_mem : ∀ (idx : Nat) (shapes : List Shape) (n : DecompiledNode),
    n ∈ firstPass idx shapes →
    ∃ s ∈ shapes, shapeToNodeType s ≠ none
      ∧ n.centerX = (getShapeCenter s).x ∧ n.centerY = (getShapeCenter s).y := by
  intro idx shapes
  induction shapes generalizing idx with
  | nil => intro n hn; simp [firstPass] at hn
  | cons s rest ih =>
    intro n hn
    cases hst : shapeToNodeType s with
    | some ty =>
      simp only [firstPass, hst, List.mem_cons] at hn
      rcases hn with rfl | hn'
      · exact ⟨s, List.mem_cons_self s rest, by simp [hst], rfl, rfl⟩
      · obtain ⟨s', hmem, hcap, hx, hy⟩ := ih (idx + 1) n hn'
        exact ⟨s', List.mem_cons_of_mem s hmem, hcap, hx, hy⟩
    | none =>
      simp only [firstPass, hst] at hn
      obtain ⟨s', hmem, hcap, hx, hy⟩ := ih idx n hn
      exact ⟨s', List.mem_cons_of_mem s hmem, hcap, hx, hy⟩

/-- Per-axis domination: the clamped box offset is bounded by the offset to
the midpoint, when the extent is nonnegative. -/
theorem axis_sq_le (p a w : Rat) (hw : 0 ≤ w) :
    (max (a - p) (max 0 (p - (a + w)))) * (max (a - p) (max 0 (p - (a + w)))) ≤
      (p - (a + w/2)) * (p - (a + w/2)) := by
  have hm0 : (0 : Rat) ≤ max (a - p) (max 0 (p - (a + w))) :=
    le_max_of_le_right (le_max_left 0 _)
  rcases le_total p (a + w/2) with hp | hp
  · have hmt : max (a - p) (max 0 (p - (a + w))) ≤ a + w/2 - p := by
      apply max_le
      · linarith
      · apply max_le <;> linarith
    nlinarith [mul_self_le_mul_self hm0 hmt]
  · have hmt : max (a - p) (max 0 (p - (a + w))) ≤ p - (a + w/2) := by
      apply max_le
      · linarith
      · apply max_le <;> linarith
    nlinarith [mul_self_le_mul_self hm0 hmt]

/-- Squared distance to a box bounds squared distance to its center from
below, for nonnegative extents. -/
theorem specBoxDistSq_le_centerDistSq (px py x y w h : Rat) (hw : 0 ≤ w) (hh : 0 ≤ h) :
    specBoxDistSq px py x y w h ≤
      (px - (x + w/2)) * (px - (x + w/2)) + (py - (y + h/2)) * (py - (y + h/2)) := by
  have h1 := axis_sq_le px x w hw
  have h2 := axis_sq_le py y h hh
  simp only [specBoxDistSq]
  exact add_le_add h1 h2

/-- On finite coordinates the squared center distance is the literal
rational expression. -/
theorem distSqToCenter_num (px py cx cy : Rat) (n : DecompiledNode)
    (hx : n.centerX = .num cx) (hy : n.centerY = .num cy) :
    distSqToCenter ⟨.num px, .num py⟩ n =
      .num ((px - cx) * (px - cx) + (py - cy) * (py - cy)) := by
  simp only [distSqToCenter, hx, hy, JsNum.sub, JsNum.neg, JsNum.add, JsNum.mul]
  ring_nf

/-- A node-capable shape with a finite bounding box has its center at the
box midpoint. -/
theorem center_of_nodeBox (s : Shape) (x y w h : Rat) (hb : nodeBox s = some (x, y, w, h)) :
    getShapeCenter s = ⟨.num (x + w/2), .num (y + h/2)⟩ := by
  cases s with
  | rectangle b wj hj cr =>
    cases b with
    | mk id bx by_ rot st sw f o =>
      cases bx <;> cases by_ <;> cases wj <;> cases hj <;>
        simp_all [nodeBox, getShapeCenter, JsNum.add, JsNum.half]
  | ellipse b wj hj =>
    cases b with
    | mk id bx by_ rot st sw f o =>
      cases bx <;> cases by_ <;> cases wj <;> cases hj <;>
        simp_all [nodeBox, getShapeCenter, JsNum.add, JsNum.half]
  | line b pts sc ec => simp [nodeBox] at hb
  | arrow b pts sa ea sc ec => simp [nodeBox] at hb
  | freehand b pts => simp [nodeBox] at hb
  | text b txt fs ff wj hj => simp [nodeBox] at hb

/-- C8 (amended): endpoint matching in `decompile` is nearest-center under
a strict 50-unit threshold, with no distance-to-bounding-box computation:
(i) `findConnectedNode` returns `none` exactly when every node's center is
at least 50 away, and otherwise the id of a node within the threshold that
no node strictly beats; (ii) over the nodes extracted by the first pass, a
point at squared box-distance at least 2500 from every node-capable
shape's bounding box matches nothing — even a point inside a node's box
can fail to match, as the separate counterexample shows; (iii) a connector
whose first endpoint resolves to no node contributes no edge; (iv) when no
connector resolves, the decompiled output consists of the node lines
alone. -/
theorem decompile_endpoint_matching :
    (∀ (point : JsPoint) (nodes : List DecompiledNode),
       (findConnectedNode point nodes = none
          ∧ ∀ m ∈ nodes, JsNum.lt (distSqToCenter point m) (.num 2500) = false)
       ∨ (∃ n ∈ nodes, findConnectedNode point nodes = some n.id
            ∧ JsNum.lt (distSqToCenter point n) (.num 2500) = true
            ∧ ∀ m ∈ nodes, JsNum.lt (distSqToCenter point m) (distSqToCenter point n) = false))
    ∧
    (∀ (shapes : List Shape) (px py : Rat),
       (∀ s ∈ shapes, shapeToNodeType s ≠ none →
          ∃ x y w h, nodeBox s = some (x, y, w, h) ∧ 0 ≤ w ∧ 0 ≤ h ∧
            2500 ≤ specBoxDistSq px py x y w h) →
       findConnectedNode ⟨.num px, .num py⟩ (firstPass 0 shapes) = none)
    ∧
    (∀ (nodes : List DecompiledNode) (s : Shape) (p0 : JsPoint) (ps : List JsPoint),
       connectorPoints s = some (p0 :: ps) →
       findConnectedNode p0 nodes = none →
       edgeOfShape nodes s = none)
    ∧
    (∀ shapes : List Shape,
       (∀ s ∈ shapes, edgeOfShape (firstPass 0 shapes) s = none) →
       decompile shapes = String.intercalate "\n" ((firstPass 0 shapes).map nodeLine)) := by
  refine ⟨?_, ?_, ?_, ?_⟩
  · intro point nodes
    rcases findGo_result point nodes none (.num 2500) with ⟨heq, hall⟩ | ⟨n, hn, heq, hlt, hmin⟩
    · exact Or.inl ⟨heq, hall⟩
    · exact Or.inr ⟨n, hn, heq, hlt, hmin⟩
  · intro shapes px py hfar
    have key : ∀ m ∈ firstPass 0 shapes,
        JsNum.lt (distSqToCenter ⟨.num px, .num py⟩ m) (.num 2500) = false := by
      intro m hm
      obtain ⟨s, hsmem, hcap, hcx, hcy⟩ := firstPass_mem 0 shapes m hm
      obtain ⟨x, y, w, h, hb, hw, hh, hfar'⟩ := hfar s hsmem hcap
      have hc := center_of_nodeBox s x y w h hb
      have hx' : m.centerX = .num (x + w/2) := by rw [hcx, hc]
      have hy' : m.centerY = .num (y + h/2) := by rw [hcy, hc]
      rw [distSqToCenter_num px py (x + w/2) (y + h/2) m hx' hy']
      simp only [JsNum.lt, decide_eq_false_iff_not, not_lt]
      have hdom := specBoxDistSq_le_centerDistSq px py x y w h hw hh
      linarith
    exact findGo_const _ _ _ _ key
  · intro nodes s p0 ps hcp hnone
    cases ps with
    | nil => simp [edgeOfShape, hcp]
    | cons q ps' => simp [edgeOfShape, hcp, hnone]
  · intro shapes hall
    have hfm : shapes.filterMap (edgeOfShape (firstPass 0 shapes)) = [] :=
      List.filterMap_eq_nil_iff.mpr hall
    simp [decompile, hfm, renderLines]

unseal Rat.add Rat.sub Rat.mul Rat.inv Rat.ofScientific in
/-- Witness for C8's amended claim: with a single 10-by-10 rectangle at the
origin, the point (100, 0) is 90 units from the box, so it matches no node
and the far arrow yields no edge. -/
theorem decompile_endpoint_matching_witness :
    findConnectedNode ⟨.num 100, .num 0⟩ (firstPass 0 [c8FarRect]) = none
    ∧ edgeOfShape (firstPass 0 [c8FarRect]) c8FarArrow = none := by
  have hfar : ∀ s ∈ [c8FarRect], shapeToNodeType s ≠ none →
      ∃ x y w h, nodeBox s = some (x, y, w, h) ∧ 0 ≤ w ∧ 0 ≤ h ∧
        2500 ≤ specBoxDistSq 100 0 x y w h := by
    intro s hs _
    simp only [List.mem_singleton] at hs
    subst hs
    exact ⟨0, 0, 10, 10, rfl, by norm_num, by norm_num, by decide⟩
  have h1 := decompile_endpoint_matching.2.1 [c8FarRect] 100 0 hfar
  exact ⟨h1, decompile_endpoint_matching.2.2.1 (firstPass 0 [c8FarRect]) c8FarArrow
    ⟨.num 100, .num 0⟩ [⟨.num 100, .num 50⟩] rfl h1⟩

/-! ### C2: explicit-position compilation -/

theorem compileExplicitNodes_mem :
    ∀ (reg : Registry) (i : Nat), ∀ p ∈ reg,
      ∃ j, createNodeShape p.1 (generateId j) (styleX p.2) (styleY p.2)
          (explicitWidth p.2) (explicitHeight p.2) p.2 ∈ compileExplicitNodes i reg := by
  intro reg
  induction reg with
  | nil => intro i p hp; simp at hp
  | cons q rest ih =>
    intro i p hp
    rcases List.mem_cons.mp hp with rfl | hp'
    · exact ⟨i, by simp [compileExplicitNodes]⟩
    · obtain ⟨j, hj⟩ := ih (i + 1) p hp'
      exact ⟨j, by simp only [compileExplicitNodes]; exact List.mem_cons_of_mem _ hj⟩

theorem compileExplicitEdges_mem (reg : Registry) :
    ∀ (edges : List EdgeAST) (i : Nat), ∀ e ∈ edges, ∀ fn tn,
      regGet reg e.fromId = some fn → regGet reg e.toId = some tn →
      ∃ j, createArrowFromPoints (generateId j) [explicitCenter fn, explicitCenter tn] e
          ∈ compileExplicitEdges reg i edges := by
  intro edges
  induction edges with
  | nil => intro i e he; simp at he
  | cons e0 rest ih =>
    intro i e he fn tn hf ht
    rcases List.mem_cons.mp he with rfl | he'
    · refine ⟨i, ?_⟩
      simp only [compileExplicitEdges, hf, ht]
      exact List.mem_cons_self _ _
    · cases hf0 : regGet reg e0.fromId with
      | none =>
        obtain ⟨j, hj⟩ := ih i e he' fn tn hf ht
        exact ⟨j, by simp [compileExplicitEdges, hf0]; exact hj⟩
      | some fn0 =>
        cases ht0 : regGet reg e0.toId with
        | none =>
          obtain ⟨j, hj⟩ := ih i e he' fn tn hf ht
          exact ⟨j, by simp [compileExplicitEdges, hf0, ht0]; exact hj⟩
        | some tn0 =>
          obtain ⟨j, hj⟩ := ih (i + 1) e he' fn tn hf ht
          exact ⟨j, by simp [compileExplicitEdges, hf0, ht0]; exact Or.inr hj⟩

/-- C2 (amended): when every node carries both x and y style values,
`compile` runs in explicit-position mode: (i) the layout collaborator is
never invoked — the output is the same function of the document for every
collaborator; (ii) the output is exactly the explicit node loop followed
by the explicit edge loop; (iii) every registered node appears as a shape
built by `createNodeShape` from its literal style coordinates and its
literal-or-default dimensions; (iv) every edge whose endpoints are
registered appears as a connector built by `createArrowFromPoints` whose
two points are the endpoint nodes' geometric centers — `explicitCenter`
reads only the node styles, so the edge's own x1,y1,x2,y2 anchors are
never consulted. -/
theorem compile_explicit_mode_uses_centers
    (ast : DocumentAST) (opts : CompileOptions)
    (elkLayout elkLayout' : ElkGraphIn → ElkGraphOut)
    (h : allHavePositions (extractGraph ast.statements).1 = true) :
    compile ast opts elkLayout = compile ast opts elkLayout'
    ∧ compile ast opts elkLayout =
        compileExplicitNodes 0 (extractGraph ast.statements).1
          ++ compileExplicitEdges (extractGraph ast.statements).1
               (extractGraph ast.statements).1.length (extractGraph ast.statements).2
    ∧ (∀ p ∈ (extractGraph ast.statements).1,
        ∃ j, createNodeShape p.1 (generateId j) (styleX p.2) (styleY p.2)
            (explicitWidth p.2) (explicitHeight p.2) p.2 ∈ compile ast opts elkLayout)
    ∧ (∀ e ∈ (extractGraph ast.statements).2, ∀ fn tn,
        regGet (extractGraph ast.statements).1 e.fromId = some fn →
        regGet (extractGraph ast.statements).1 e.toId = some tn →
        ∃ j, createArrowFromPoints (generateId j) [explicitCenter fn, explicitCenter tn] e
            ∈ compile ast opts elkLayout) := by
  have hexp : compile ast opts elkLayout =
      compileExplicitNodes 0 (extractGraph ast.statements).1
        ++ compileExplicitEdges (extractGraph ast.statements).1
             (extractGraph ast.statements).1.length (extractGraph ast.statements).2 := by
    simp only [compile, h, if_true]
  refine ⟨by simp only [compile, h, if_true], hexp, ?_, ?_⟩
  · intro p hp
    obtain ⟨j, hj⟩ := compileExplicitNodes_mem (extractGraph ast.statements).1 0 p hp
    exact ⟨j, by rw [hexp]; exact List.mem_append_left _ hj⟩
  · intro e he fn tn hf ht
    obtain ⟨j, hj⟩ := compileExplicitEdges_mem (extractGraph ast.statements).1
      (extractGraph ast.statements).2 (extractGraph ast.statements).1.length e he fn tn hf ht
    exact ⟨j, by rw [hexp]; exact List.mem_append_right _ hj⟩

unseal Rat.add Rat.sub Rat.mul Rat.inv Rat.ofScientific in
/-- Witness for C2's amended claim at the concrete document `c2src`: both
nodes carry x and y, so two different collaborators give identical output,
equal to the explicit loops. -/
theorem compile_explicit_mode_uses_centers_witness :
    compile (parse c2src) {} elkConst = compile (parse c2src) {} elkEmpty
    ∧ compile (parse c2src) {} elkConst =
        compileExplicitNodes 0 (extractGraph (parse c2src).statements).1
          ++ compileExplicitEdges (extractGraph (parse c2src).statements).1
               (extractGraph (parse c2src).statements).1.length
               (extractGraph (parse c2src).statements).2 := by
  have h := compile_explicit_mode_uses_centers (parse c2src) {} elkConst elkEmpty (by rfl)
  exact ⟨h.1, h.2.1⟩

end Pinto
